import Mathlib

/-!
# GLM realtime client: connection engine, frame buffer and streaming adapter

A shallow embedding of `client/client.go` (package `client`): the
`realtimeClient` structure, its lifecycle operations (`Connect`, `Disconnect`,
`Send`), the receive loop `readWsMsg`, the video-frame buffer
(`SendFrameByVideo`, `FlushVideoFrames`) and the streaming completion adapter
`sendBatchFramesTo4V`.

Conventions of the embedding.

* The Go struct `realtimeClient` is the record `Client`; the two mutexes are
  not fields: each operation below runs to completion before the next one
  begins, and a pass of the receive loop is one such step.  Interleavings
  inside an operation are not part of the model.
* Everything outside the process (the websocket library, the HTTP endpoint,
  the wall clock, the callback's log of received events) is the record
  `World`.  It also carries the counters that observe the client: handshakes,
  closes, flush invocations, contents handed to the adapter.
* Library and missing-package behaviour the client depends on but does not
  define (the JSON decoders, `Event.ToJson`, the constant
  `events.RealtimeClientVideoAppend`, the clock) is the record `Env`.
* A Go `error` is `Option String`: `none` is `nil`.
* `log.Printf` calls have no effect on the state and are left out.
-/

namespace GlmRealtime

/-! ## Data model -/

/-- One octet of a frame payload (`byte`). -/
abbrev Byte := Fin 256

/-- A raw video frame, `[]byte`. -/
abbrev Frame := List Byte

/-- A Go `error` value; `none` is `nil`. -/
abbrev Err := Option String

/-- Modelled from the spec: the nested session configuration of an event
(`events.Session`, declared in the `events` package, which is not among the
sources).  Only the field the client reads, `Instructions`, is kept. -/
structure Session where
  instructions : String
deriving DecidableEq, Repr

/-- Modelled from the spec: the event record `events.Event` (declared in the
`events` package, which is not among the sources), with the fields that
`client.go` reads or writes: `EventID`, `Type`, `ClientTimestamp`,
`ResponseID`, `ItemID`, `Delta`, `Text` (a `*string`), `VideoFrame` and
`Session` (a pointer, `none` is `nil`). -/
structure Event where
  eventID : String := ""
  type : String := ""
  clientTimestamp : Int := 0
  responseID : String := ""
  itemID : String := ""
  delta : String := ""
  text : Option String := none
  videoFrame : Frame := []
  session : Option Session := none
deriving DecidableEq, Repr

/-- A loosely typed JSON value, what `encoding/json` stores in an
`interface{}`: `nil`, `bool`, `float64` (kept as its literal), `string`,
`[]interface{}` and `map[string]interface{}`. -/
inductive Json where
  | null : Json
  | bool : Bool → Json
  | num : String → Json
  | str : String → Json
  | arr : List Json → Json
  | obj : List (String × Json) → Json

/-- One entry of the multi-part content array built by `FlushVideoFrames`:
the map `{"type": "text", "text": t}` or the map
`{"type": "image_url", "image_url": {"url": u}}`. -/
inductive ContentPart where
  | text (text : String)
  | imageUrl (url : String)
deriving DecidableEq, Repr

/-- The JSON body of the batch request, `requestBody` in
`sendBatchFramesTo4V`: `{"model": m, "messages": [{"role": r, "content": c}],
"stream": s}`. -/
structure BatchRequest where
  model : String
  role : String
  content : List ContentPart
  stream : Bool
deriving DecidableEq, Repr

/-- What the environment answers to one run of `sendBatchFramesTo4V`, in the
order the code can fail: `json.Marshal` fails, `http.NewRequest` fails,
`client.Do` fails, or a response arrives with a status code and a body.  The
body is the text that `ReadString` could read before the stream ended (at EOF
or at a read error, which the code treats alike), taken as decoded text. -/
inductive BatchOutcome where
  | marshalError (msg : String)
  | requestError (msg : String)
  | doError (msg : String)
  | response (status : Nat) (body : String)
deriving DecidableEq, Repr

/-- The registered callback `onReceived`: it sees an event and returns an
error or `nil`.  A callback that calls back into the client (for instance
`Disconnect` on a final event) performs an operation of the client; that
operation is a step of its own in this model. -/
abbrev Callback := Event → Err

/-- The struct `realtimeClient`.  `conn` is the websocket handle (`none` is a
nil pointer, `some h` the handle of the `h`-th dial), `wg` the `*sync.WaitGroup`
(`none` is nil, `some n` a group whose counter is `n`). -/
structure Client where
  url : String
  apiKey : String
  onReceived : Option Callback
  conn : Option Nat
  isConnected : Bool
  wg : Option Int
  videoFrames : List Frame
  maxFrameCount : Int
  instructions : String

/-- What lies outside the client, and the counters observing it. -/
structure World where
  /-- number of `time.Now()` readings taken so far -/
  tick : Nat := 0
  /-- number of `websocket.DefaultDialer.Dial` calls -/
  handshakes : Nat := 0
  /-- number of `conn.Close()` calls -/
  closes : Nat := 0
  /-- handles dialed and not yet closed by the client -/
  openConns : List Nat := []
  /-- text messages handed to `conn.WriteMessage`, with the handle -/
  written : List (Nat × String) := []
  /-- receive-loop goroutines started and not yet returned -/
  loops : Nat := 0
  /-- events handed to the callback, oldest first -/
  delivered : List Event := []
  /-- number of `FlushVideoFrames` invocations -/
  flushCalls : Nat := 0
  /-- content arrays handed to `sendBatchFramesTo4V`, oldest first -/
  dispatched : List (List ContentPart) := []
  /-- request bodies handed to `http.Client.Do`, oldest first -/
  requests : List BatchRequest := []
deriving DecidableEq, Repr

/-- Library behaviour and missing declarations the client depends on. -/
structure Env where
  /-- `clock n` is the `n`-th reading of `time.Now()`, in Unix nanoseconds -/
  clock : Nat → Int
  /-- the constant `events.RealtimeClientVideoAppend` -/
  videoAppend : String
  /-- the method `Event.ToJson` -/
  toJson : Event → String
  /-- `json.Unmarshal(message, &events.Event{})`: `none` is an error -/
  unmarshalEvent : String → Option Event
  /-- `json.Unmarshal(data, &chunk)` for `chunk map[string]interface{}`:
  `none` is an error, `some m` the resulting map as an association list -/
  unmarshalChunk : String → Option (List (String × Json))

/-- The client together with its surroundings. -/
structure Sys where
  client : Client
  world : World

/-! ## Clock and formatting -/

/-- `time.Now().UnixNano()`: one reading of the clock. -/
def nowNano (env : Env) (w : World) : Int × World :=
  (env.clock w.tick, { w with tick := w.tick + 1 })

/-- `time.Now().UnixMilli()`: one reading of the clock, in milliseconds. -/
def nowMilli (env : Env) (w : World) : Int × World :=
  (env.clock w.tick / 1000000, { w with tick := w.tick + 1 })

/-- `fmt.Sprintf("%d", n)` for an `int64`. -/
def fmtInt (n : Int) : String := toString n

/-! ## `encoding/base64`, `StdEncoding.EncodeToString` -/

/-- The standard alphabet of RFC 4648. -/
def b64Alphabet : List Char :=
  "ABCDEFGHIJKLMNOPQRSTUVWXYZabcdefghijklmnopqrstuvwxyz0123456789+/".toList

/-- The character of a 6-bit value. -/
def b64Char (n : Nat) : Char := b64Alphabet.getD (n % 64) '='

/-- Encoding of a byte sequence, three octets to four characters, padded
with `=`. -/
def b64Encode : List Byte → List Char
  | a :: b :: c :: rest =>
    let n := a.val * 65536 + b.val * 256 + c.val
    b64Char (n / 262144) :: b64Char (n / 4096) :: b64Char (n / 64) :: b64Char n
      :: b64Encode rest
  | [a, b] =>
    let n := a.val * 65536 + b.val * 256
    [b64Char (n / 262144), b64Char (n / 4096), b64Char (n / 64), '=']
  | [a] =>
    let n := a.val * 65536
    [b64Char (n / 262144), b64Char (n / 4096), '=', '=']
  | [] => []

/-- `base64.StdEncoding.EncodeToString`. -/
def base64Std (frame : Frame) : String := String.mk (b64Encode frame)

/-! ## Text helpers of the streaming adapter (`strings`, `bufio`) -/

/-- `unicode.IsSpace`: tab, line feed, vertical tab, form feed, carriage
return, space, U+0085, U+00A0, and the other code points with the
White_Space property. -/
def isSpace (c : Char) : Bool :=
  let n := c.toNat
  n = 9 || n = 10 || n = 11 || n = 12 || n = 13 || n = 32 || n = 0x85 || n = 0xA0
    || n = 0x1680 || (0x2000 ≤ n && n ≤ 0x200A) || n = 0x2028 || n = 0x2029
    || n = 0x202F || n = 0x205F || n = 0x3000

/-- `strings.TrimSpace`: leading and trailing white space removed. -/
def trimSpace (l : List Char) : List Char :=
  ((l.dropWhile isSpace).reverse.dropWhile isSpace).reverse

/-- The literal `"data: "`. -/
def dataTag : List Char := "data: ".toList

/-- The successive results of `reader.ReadString('\n')` on a body: each
result runs up to and including a line feed.  When the body ends before a
line feed, `ReadString` returns the pending text together with an error, and
the caller leaves its loop without looking at that text, so the pending text
`cur` is not a result. -/
def readLinesAux : List Char → List Char → List (List Char)
  | _, [] => []
  | cur, c :: cs =>
    if c = '\n' then (cur ++ [c]) :: readLinesAux [] cs
    else readLinesAux (cur ++ [c]) cs

/-- The lines `ReadString` delivers without error for a response body. -/
def readLines (body : String) : List (List Char) := readLinesAux [] body.toList

/-- The nested lookup `chunk["choices"][0]["delta"]["content"]` with the type
assertions of the source: `choices` is a non-empty array, its first element
an object, `delta` an object, `content` a non-empty string. -/
def extractContent (chunk : List (String × Json)) : Option String :=
  match chunk.lookup "choices" with
  | some (Json.arr (first :: _)) =>
    match first with
    | Json.obj choice =>
      match choice.lookup "delta" with
      | some (Json.obj delta) =>
        match delta.lookup "content" with
        | some (Json.str content) => if content ≠ "" then some content else none
        | _ => none
      | _ => none
    | _ => none
  | _ => none

/-! ## The streaming completion adapter -/

/-- `sendFakeEvent`: the event goes to the callback when one is registered;
the callback's error is only logged. -/
def sendFakeEvent (c : Client) (w : World) (event : Event) : World :=
  match c.onReceived with
  | some _ => { w with delivered := w.delivered ++ [event] }
  | none => w

/-- Build a synthesized event and deliver it: the event identifier is
`"event"` followed by a clock reading in nanoseconds, the client timestamp a
second clock reading in milliseconds; `fill` sets the remaining fields. -/
def emit (env : Env) (c : Client) (w : World) (fill : Event → Event) : World :=
  let (t, w1) := nowNano env w
  let (ms, w2) := nowMilli env w1
  sendFakeEvent c w2 (fill { eventID := "event" ++ fmtInt t, clientTimestamp := ms })

/-- The `for` loop of `sendBatchFramesTo4V` over the lines read from the
response body; the result is the accumulated `fullText` and the world after
the deliveries.  The loop ends when the lines run out (`ReadString` returned
an error) or at a line whose payload is `[DONE]`. -/
def consumeLines (env : Env) (c : Client) (responseID itemID : String) :
    List (List Char) → String → World → String × World
  | [], fullText, w => (fullText, w)
  | raw :: rest, fullText, w =>
    let line := trimSpace raw
    if !(dataTag.isPrefixOf line) then
      consumeLines env c responseID itemID rest fullText w
    else
      let data := String.mk (line.drop dataTag.length)
      if data = "[DONE]" then (fullText, w)
      else
        match env.unmarshalChunk data with
        | none => consumeLines env c responseID itemID rest fullText w
        | some chunk =>
          match extractContent chunk with
          | none => consumeLines env c responseID itemID rest fullText w
          | some content =>
            consumeLines env c responseID itemID rest (fullText ++ content)
              (emit env c w fun e =>
                { e with type := "response.text.delta", responseID := responseID,
                         itemID := itemID, delta := content })

/-- The part of `sendBatchFramesTo4V` that runs on a 200 response: two
opening events, the line loop, two closing events. -/
def streamResponse (env : Env) (c : Client) (w : World) (body : String) : World :=
  let (t1, w1) := nowNano env w
  let responseID := "resp" ++ fmtInt t1
  let (t2, w2) := nowNano env w1
  let itemID := "item" ++ fmtInt t2
  let w3 := emit env c w2 fun e =>
    { e with type := "response.created", responseID := responseID }
  let w4 := emit env c w3 fun e =>
    { e with type := "response.output_item.added", responseID := responseID,
             itemID := itemID }
  let (fullText, w5) := consumeLines env c responseID itemID (readLines body) "" w4
  let w6 := emit env c w5 fun e =>
    { e with type := "response.text.done", responseID := responseID,
             itemID := itemID, text := some fullText }
  emit env c w6 fun e =>
    { e with type := "response.done", responseID := responseID }

/-- The request body built by `sendBatchFramesTo4V`. -/
def requestBody (content : List ContentPart) : BatchRequest :=
  { model := "glm-4.5v", role := "user", content := content, stream := true }

/-- `sendBatchFramesTo4V`: the environment's answer `outcome` decides which
return is taken. -/
def sendBatchFramesTo4V (env : Env) (outcome : BatchOutcome) (c : Client) (w : World)
    (content : List ContentPart) : World × Err :=
  let w := { w with dispatched := w.dispatched ++ [content] }
  match outcome with
  | .marshalError msg => (w, some msg)
  | .requestError msg => (w, some msg)
  | .doError msg => ({ w with requests := w.requests ++ [requestBody content] }, some msg)
  | .response status body =>
    let w := { w with requests := w.requests ++ [requestBody content] }
    if status ≠ 200 then (w, some ("API Error: " ++ body))
    else (streamResponse env c w body, none)

/-! ## The frame buffer -/

/-- The fallback prompt, the literal used by `NewRealtimeClient` and by
`FlushVideoFrames`. -/
def fallbackPrompt : String := "请描述这个视频的内容"

/-- The image entry built for one frame in the loop of `FlushVideoFrames`. -/
def imagePart (frame : Frame) : ContentPart :=
  .imageUrl ("data:image/jpeg;base64," ++ base64Std frame)

/-- `FlushVideoFrames`: copy and clear the buffer, return at once when the
copy is empty, otherwise build the content array (the text entry, then one
entry per frame appended by the `range` loop) and hand it to the adapter. -/
def FlushVideoFrames (env : Env) (outcome : BatchOutcome) (s : Sys) : Sys × Err :=
  let frames := s.client.videoFrames
  let c := { s.client with videoFrames := [] }
  let w := { s.world with flushCalls := s.world.flushCalls + 1 }
  if frames.length = 0 then ({ client := c, world := w }, none)
  else
    let prompt := if c.instructions = "" then fallbackPrompt else c.instructions
    let contentArray : List ContentPart := [] ++ [ContentPart.text prompt]
    let contentArray := frames.foldl (fun acc frame => acc ++ [imagePart frame]) contentArray
    let (w, err) := sendBatchFramesTo4V env outcome c w contentArray
    ({ client := c, world := w }, err)

/-- `SendFrameByVideo`: the two validations, the timestamp, the append, and
the flush when the buffer has reached `maxFrameCount`.  The event comes back
because the call may stamp it. -/
def SendFrameByVideo (env : Env) (outcome : BatchOutcome) (s : Sys) (event : Event) :
    Sys × Event × Err :=
  if env.videoAppend ≠ event.type then
    (s, event, some "event type is not RealtimeClientVideoAppend")
  else if event.videoFrame.length = 0 then
    (s, event, some "event videoFrame is empty")
  else
    let (event, w) :=
      if event.clientTimestamp ≤ 0 then
        let (ms, w) := nowMilli env s.world
        ({ event with clientTimestamp := ms }, w)
      else (event, s.world)
    let c := { s.client with videoFrames := s.client.videoFrames ++ [event.videoFrame] }
    let frameCount : Int := c.videoFrames.length
    let s := { client := c, world := w }
    if frameCount ≥ c.maxFrameCount then
      let (s, err) := FlushVideoFrames env outcome s
      (s, event, err)
    else (s, event, none)

/-- `SetInstructions`. -/
def SetInstructions (s : Sys) (instructions : String) : Sys :=
  { s with client := { s.client with instructions := instructions } }

/-! ## Connection lifecycle

An operation that dereferences a pointer of the client (`r.conn`, `r.wg`)
returns an `Option`: `none` is the runtime panic of a nil pointer. -/

/-- `NewRealtimeClient`: the handles are nil, the flag is false, the buffer
is empty, the threshold is 10 and the instructions are the fallback prompt. -/
def NewRealtimeClient (url apiKey : String) (onReceived : Option Callback) : Client :=
  { url := url, apiKey := apiKey, onReceived := onReceived, conn := none,
    isConnected := false, wg := none, videoFrames := [], maxFrameCount := 10,
    instructions := "请描述这个视频的内容" }

/-- A freshly constructed client in a world where nothing has happened. -/
def freshSys (url apiKey : String) (onReceived : Option Callback) : Sys :=
  { client := NewRealtimeClient url apiKey onReceived, world := {} }

/-- `Connect`: nothing when already connected; otherwise one dial, whose
answer is `dialErr`.  On success the handle, the flag and a new wait group
(counter 1 after `Add(1)`) are stored and the receive loop is started. -/
def Connect (dialErr : Err) (s : Sys) : Sys × Err :=
  if s.client.isConnected then (s, none)
  else
    let w := { s.world with handshakes := s.world.handshakes + 1 }
    match dialErr with
    | some e => ({ s with world := w }, some e)
    | none =>
      let h := w.handshakes
      ({ client := { s.client with conn := some h, isConnected := true, wg := some 1 },
         world := { w with openConns := h :: w.openConns, loops := w.loops + 1 } }, none)

/-- `IsConnected`. -/
def IsConnected (s : Sys) : Bool := s.client.isConnected

/-- `Disconnect`: nothing when not connected; otherwise the flag is cleared
and the handle closed, and the result of `Close` (`closeErr`) is returned. -/
def Disconnect (closeErr : Err) (s : Sys) : Option (Sys × Err) :=
  if !s.client.isConnected then some (s, none)
  else
    match s.client.conn with
    | none => none
    | some h =>
      some ({ client := { s.client with isConnected := false },
              world := { s.world with closes := s.world.closes + 1,
                                      openConns := s.world.openConns.erase h } }, closeErr)

/-- `Send`: the "not connected" error when the flag is false; otherwise the
timestamp is set when it is not positive and the serialized event is handed
to `WriteMessage`, whose result (`writeErr`) is returned.  The event comes
back because the call may stamp it. -/
def Send (env : Env) (writeErr : Err) (s : Sys) (event : Event) : Option (Sys × Event × Err) :=
  if !s.client.isConnected then some (s, event, some "not connected")
  else
    let (event, w) :=
      if event.clientTimestamp ≤ 0 then
        let (ms, w) := nowMilli env s.world
        ({ event with clientTimestamp := ms }, w)
      else (event, s.world)
    match s.client.conn with
    | none => none
    | some h =>
      some ({ s with world := { w with written := w.written ++ [(h, env.toJson event)] } },
            event, writeErr)

/-! ## The receive loop -/

/-- What `conn.ReadMessage()` returns: a message or an error (a closed or
broken connection, or the read deadline). -/
inductive ReadResult where
  | message (payload : String)
  | error (msg : String)
deriving DecidableEq, Repr

/-- The deferred `r.wg.Done()` of `readWsMsg`, run when the loop returns.
The `defer` statement is the first of the goroutine and binds the group that
`r.wg` points to at that moment, the one created by the `Connect` that
started the goroutine; `Done` acts on that group whatever `r.wg` has become
since.  `own` says whether that group is still the one `r.wg` points to (no
later `Connect` has replaced it): then the counter of the client's group
goes down by one, otherwise the client's group is left alone.  The group of
a goroutine gets one `Add(1)`, in its `Connect`, and this one `Done`, so its
counter goes from 1 to 0: it is neither nil nor negative, and `Done` does
not panic. -/
def loopExit (own : Bool) (s : Sys) : Sys :=
  { client := if own then { s.client with wg := s.client.wg.map fun n => n - 1 }
              else s.client,
    world := { s.world with loops := s.world.loops - 1 } }

/-- The 30 seconds of `waitTimeout`, in nanoseconds. -/
def waitTimeout : Int := 30 * 1000000000

/-- One pass through the `for r.IsConnected()` loop of `readWsMsg`, for the
goroutine whose deadline is `deadline`; `rd` is what `ReadMessage` answers
and `closeErr` what `Close` answers should the pass call `Disconnect`; `own`
says whether the group bound by the deferred `Done` of this goroutine is
still the client's (see `loopExit`).  The Boolean of the result says whether
the loop goes on (`true`) or the goroutine has returned (`false`). -/
def readWsMsgIter (env : Env) (deadline : Int) (rd : ReadResult) (closeErr : Err)
    (own : Bool) (s : Sys) : Option (Sys × Bool) :=
  if !IsConnected s then some (loopExit own s, false)
  else
    let (now, w) := nowNano env s.world
    let s := { s with world := w }
    if now > deadline then some (loopExit own s, false)
    else
      match s.client.conn with
      | none => none
      | some _ =>
        -- `SetReadDeadline(time.Now().Add(15 * time.Second))`
        let s := { s with world := (nowNano env s.world).2 }
        match rd with
        | .error _ => some (loopExit own s, false)
        | .message message =>
          match s.client.onReceived with
          | none => some (s, true)
          | some onReceived =>
            match env.unmarshalEvent message with
            | none =>
              match Disconnect closeErr s with
              | none => none
              | some (s, _) => some (loopExit own s, false)
            | some event =>
              let s :=
                match event.session with
                | some session =>
                  if event.type = "session.update" ∧ session.instructions ≠ "" then
                    { s with client := { s.client with instructions := session.instructions } }
                  else s
                | none => s
              let s := { s with world := { s.world with delivered := s.world.delivered ++ [event] } }
              match onReceived event with
              | some _ =>
                match Disconnect closeErr s with
                | none => none
                | some (s, _) => some (loopExit own s, false)
              | none => some (s, true)

/-- The loop of `readWsMsg` run on a finite supply of answers from the
transport, with no other operation of the client in between.  The result is
`true` when the supply ran out with the loop still going. -/
def readWsMsgLoop (env : Env) (deadline : Int) (own : Bool) :
    List (ReadResult × Err) → Sys → Option (Sys × Bool)
  | [], s => some (s, true)
  | (rd, closeErr) :: rest, s =>
    match readWsMsgIter env deadline rd closeErr own s with
    | none => none
    | some (s, true) => readWsMsgLoop env deadline own rest s
    | some (s, false) => some (s, false)

/-- The goroutine `readWsMsg`: the deadline is fixed once, 30 seconds after
the clock reading at entry, then the loop runs. -/
def readWsMsg (env : Env) (own : Bool) (inputs : List (ReadResult × Err)) (s : Sys) :
    Option (Sys × Bool) :=
  let (now, w) := nowNano env s.world
  readWsMsgLoop env (now + waitTimeout) own inputs { s with world := w }

/-! ## Reading aids and a sample environment -/

/-- Concatenation of a list of strings, first to last. -/
def concatAll : List String → String
  | [] => ""
  | s :: rest => s ++ concatAll rest

/-- A sample chunk decoder for the worked examples: it accepts exactly the
payloads `{"choices":[{"delta":{"content":"T"}}]}` and answers the map they
denote. -/
def sampleUnmarshalChunk (data : String) : Option (List (String × Json)) :=
  let opening := "\x7b\"choices\":[\x7b\"delta\":\x7b\"content\":\"".toList
  let closing := "\"\x7d\x7d]\x7d".toList
  let l := data.toList
  if opening.isPrefixOf l ∧ closing.isSuffixOf l ∧ opening.length + closing.length ≤ l.length then
    let inner := (l.drop opening.length).take (l.length - opening.length - closing.length)
    some [("choices", .arr [.obj [("delta", .obj [("content", .str (String.mk inner))])]])]
  else none

/-- A sample event decoder for the worked examples: the empty message is
malformed, a message `session.update T` is a session update that carries the
instructions `T`, and any other message is an event of that type. -/
def sampleUnmarshalEvent (message : String) : Option Event :=
  let tag := "session.update ".toList
  if message = "" then none
  else if tag.isPrefixOf message.toList then
    some { type := "session.update",
           session := some { instructions := String.mk (message.toList.drop tag.length) } }
  else some { type := message }

/-- A sample environment: a clock that advances one nanosecond per reading,
and the sample decoders. -/
def sampleEnv : Env :=
  { clock := fun n => 1700000000000000000 + n,
    videoAppend := "input_audio_buffer.append_video_frame",
    toJson := fun e => e.type,
    unmarshalEvent := sampleUnmarshalEvent,
    unmarshalChunk := sampleUnmarshalChunk }

/-- A callback that accepts every event. -/
def acceptAll : Callback := fun _ => none

/-- A callback that rejects the events of type `bad`. -/
def rejectBad : Callback := fun e => if e.type = "bad" then some "rejected" else none

/-- A fresh client with the accepting callback. -/
def sampleSys : Sys := freshSys "wss://example.org/realtime" "key" (some acceptAll)

/-- A response body with three chunks carrying `A`, `B` and `C`, then the
end marker. -/
def abcBody : String :=
  "data: \x7b\"choices\":[\x7b\"delta\":\x7b\"content\":\"A\"\x7d\x7d]\x7d\n\n" ++
  "data: \x7b\"choices\":[\x7b\"delta\":\x7b\"content\":\"B\"\x7d\x7d]\x7d\n\n" ++
  "data: \x7b\"choices\":[\x7b\"delta\":\x7b\"content\":\"C\"\x7d\x7d]\x7d\n\n" ++
  "data: [DONE]\n\n"

/-! ## Reference and drivers for the frame buffer -/

/-- The reference of what one flush hands to the adapter, in the words of
the specification: nothing for no frames; otherwise one array whose first
entry is the text entry with the instructions, or with the fallback prompt
when the instructions are empty, followed by one image entry per frame, in
append order, each a `data:image/jpeg;base64,` URL of the encoded frame. -/
def flushReference (frames : List Frame) (instructions : String) : Option (List ContentPart) :=
  match frames with
  | [] => none
  | _ :: _ =>
    some (ContentPart.text (if instructions ≠ "" then instructions else "请描述这个视频的内容")
      :: frames.map fun f => ContentPart.imageUrl ("data:image/jpeg;base64," ++ base64Std f))

/-- Consecutive calls of `SendFrameByVideo`, one per event, each with the
answer the environment would give to a flush; the results come back in call
order. -/
def sendFrames (env : Env) : List (Event × BatchOutcome) → Sys → Sys × List Err
  | [], s => (s, [])
  | (event, outcome) :: rest, s =>
    let r := SendFrameByVideo env outcome s event
    let rs := sendFrames env rest r.1
    (rs.1, r.2.2 :: rs.2)

/-- A video-append event that passes the validations of `SendFrameByVideo`. -/
def validFrameEvent (env : Env) (event : Event) : Prop :=
  event.type = env.videoAppend ∧ event.videoFrame ≠ []

instance (env : Env) (event : Event) : Decidable (validFrameEvent env event) := by
  unfold validFrameEvent; infer_instance

/-- A sample video-append event with a three-byte payload. -/
def sampleFrameEvent (n : Nat) : Event :=
  { type := "input_audio_buffer.append_video_frame",
    videoFrame := [Fin.ofNat n, 216, 255] }

/-- Two worlds that differ at most in the clock readings taken and in the
events handed to the callback. -/
def sameTransport (w w1 : World) : Prop :=
  w1.handshakes = w.handshakes ∧ w1.closes = w.closes ∧ w1.openConns = w.openConns
  ∧ w1.written = w.written ∧ w1.loops = w.loops ∧ w1.flushCalls = w.flushCalls
  ∧ w1.dispatched = w.dispatched ∧ w1.requests = w.requests

/-- The error `sendBatchFramesTo4V` returns for each answer of the
environment: the error of the failing step, `API Error:` with the body for a
status other than 200, and `nil` after a 200 response. -/
def outcomeError : BatchOutcome → Err
  | .marshalError msg => some msg
  | .requestError msg => some msg
  | .doError msg => some msg
  | .response status body => if status ≠ 200 then some ("API Error: " ++ body) else none

/-- Nine sample video-append events, each with the answer a flush would get. -/
def samplePre : List (Event × BatchOutcome) :=
  (List.range 9).map fun n => (sampleFrameEvent n, BatchOutcome.doError "unreachable")

/-! ## The client as a transition system -/

/-- `Wait`: the helper goroutine calls `r.wg.Wait()`, a panic when the group
is nil; otherwise the call returns (when the counter is zero or after the
timeout) and changes nothing. -/
def Wait (s : Sys) : Option Sys :=
  match s.client.wg with
  | none => none
  | some _ => some s

/-- The receive loop started by the latest successful `Connect` is still
running: the counter of the client's group, set to 1 by that `Connect`, has
not been taken down by the `Done` of that loop. -/
def latestLoopRunning (s : Sys) : Bool := decide (s.client.wg = some 1)

/-- The number of running receive loops that an earlier `Connect` started. -/
def earlierLoops (s : Sys) : Nat :=
  s.world.loops - (if latestLoopRunning s then 1 else 0)

/-- One step of the client or of a receive loop, with the answers of the
environment it meets: the dial, the close, the write, and for a pass of a
receive loop its deadline, the read and the close.  `receive` is a pass of
the loop of the latest successful `Connect` while that loop runs, and of a
loop of an earlier `Connect` once it has returned; `receiveEarlier` is a pass
of a loop of an earlier `Connect` in any case. -/
inductive Action where
  | connect (dialErr : Err)
  | disconnect (closeErr : Err)
  | send (event : Event) (writeErr : Err)
  | wait
  | receive (deadline : Int) (rd : ReadResult) (closeErr : Err)
  | receiveEarlier (deadline : Int) (rd : ReadResult) (closeErr : Err)

/-- The state after one action; `none` when the action panics, or when a
pass of a receive loop is asked for and no such receive loop is running. -/
def step (env : Env) (s : Sys) : Action → Option Sys
  | .connect dialErr => some (Connect dialErr s).1
  | .disconnect closeErr => (Disconnect closeErr s).map fun r => r.1
  | .send event writeErr => (Send env writeErr s event).map fun r => r.1
  | .wait => Wait s
  | .receive deadline rd closeErr =>
    if s.world.loops = 0 then none
    else (readWsMsgIter env deadline rd closeErr (latestLoopRunning s) s).map fun r => r.1
  | .receiveEarlier deadline rd closeErr =>
    if earlierLoops s = 0 then none
    else (readWsMsgIter env deadline rd closeErr false s).map fun r => r.1

/-- The state after a sequence of actions. -/
def run (env : Env) : List Action → Sys → Option Sys
  | [], s => some s
  | a :: rest, s =>
    match step env s a with
    | none => none
    | some s1 => run env rest s1

/-- The states a freshly constructed client can reach. -/
def Reachable (env : Env) (s : Sys) : Prop :=
  ∃ (url apiKey : String) (onReceived : Option Callback) (actions : List Action),
    run env actions (freshSys url apiKey onReceived) = some s

/-- The transport handle of the client is open: it was dialed and the client
has not closed it. -/
def handleOpen (s : Sys) : Prop :=
  match s.client.conn with
  | some h => h ∈ s.world.openConns
  | none => False

instance (s : Sys) : Decidable (handleOpen s) := by
  unfold handleOpen; split <;> infer_instance

/-- A receive loop is running. -/
def loopActive (s : Sys) : Prop := 0 < s.world.loops

instance (s : Sys) : Decidable (loopActive s) := by
  unfold loopActive; infer_instance

/-- A sample connected client without a callback. -/
def connectedNoCallback : Sys :=
  (Connect none (freshSys "wss://example.org/realtime" "key" none)).1

/-- A sample connected client with the callback that rejects `bad`. -/
def connectedRejectBad : Sys :=
  (Connect none (freshSys "wss://example.org/realtime" "key" (some rejectBad))).1

/-- A deadline the sample clock does not reach. -/
def farDeadline : Int := 1700000000000000000 + waitTimeout

/-- The invariant of C8 as the specification states it: the connected flag
is true exactly when the handle is open and a receive loop is running. -/
def connectedIffOpenAndLoop (s : Sys) : Prop :=
  s.client.isConnected = true ↔ (handleOpen s ∧ loopActive s)

instance (s : Sys) : Decidable (connectedIffOpenAndLoop s) := by
  unfold connectedIffOpenAndLoop; infer_instance

/-- The part of the state the lifecycle invariant speaks of is the same in
both states: the handle, the flag, the open handles and the dial counter. -/
def sameLifecycle (s s1 : Sys) : Prop :=
  s1.client.conn = s.client.conn ∧ s1.client.isConnected = s.client.isConnected
  ∧ s1.world.openConns = s.world.openConns ∧ s1.world.handshakes = s.world.handshakes

/-- The inductive form of the lifecycle invariant: the flag is true exactly
when the handle is open, no handle is open twice, and every open handle was
given out by a dial counted so far. -/
def lifecycleInv (s : Sys) : Prop :=
  (s.client.isConnected = true ↔ handleOpen s)
  ∧ s.world.openConns.Nodup
  ∧ ∀ h ∈ s.world.openConns, h ≤ s.world.handshakes

/-- A sample connected client with the accepting callback. -/
def connectedAccept : Sys := (Connect none sampleSys).1

/-! ## Reference for the lines of a response body -/

/-- The newline-separated segments of a text, with the pending segment
`cur`: a line feed ends a segment, and the text after the last line feed is
the last segment (it ends at the end of the text, without a line feed). -/
def segmentsAux : List Char → List Char → List (List Char)
  | cur, [] => [cur]
  | cur, c :: cs =>
    if c = '\n' then cur :: segmentsAux [] cs
    else segmentsAux (cur ++ [c]) cs

/-- The lines of a response body in the words of the specification: its
newline-separated segments, the last one included. -/
def segments (body : String) : List (List Char) := segmentsAux [] body.toList

/-- The segments of a response body that a line feed ends: all but the
last. -/
def terminatedSegments (body : String) : List (List Char) := (segments body).dropLast

/-- The trimmed form of the line is `data: [DONE]`. -/
def isDoneLine (line : List Char) : Bool :=
  trimSpace line == "data: [DONE]".toList

/-- The text increment of a line, in the words of the specification: the
line starts with `data: ` after trimming and its payload parses as an object
with a non-empty string at `choices[0].delta.content`. -/
def lineDelta (env : Env) (line : List Char) : Option String :=
  if dataTag.isPrefixOf (trimSpace line) then
    match env.unmarshalChunk (String.mk ((trimSpace line).drop dataTag.length)) with
    | some chunk => extractContent chunk
    | none => none
  else none

/-- The increments the specification expects for a list of lines: one per
line that comes before the first `data: [DONE]` line and has an increment,
in order. -/
def expectedDeltas (env : Env) (lines : List (List Char)) : List String :=
  (lines.takeWhile fun line => !isDoneLine line).filterMap (lineDelta env)

/-- The deltas of the `response.text.delta` events in a list of events, in
order. -/
def textDeltas (events : List Event) : List String :=
  (events.filter fun e => e.type = "response.text.delta").map fun e => e.delta

/-- A response body whose only line carries `A` and ends at the end of the
body, without a line feed. -/
def unterminatedBody : String :=
  "data: \x7b\"choices\":[\x7b\"delta\":\x7b\"content\":\"A\"\x7d\x7d]\x7d"

/-- The handles of the client are set together: when `conn` is set, so is
`wg`. -/
def handlesInv (s : Sys) : Prop :=
  s.client.conn ≠ none → s.client.wg ≠ none

/-- A step that leaves `conn` alone and does not reset `wg`. -/
def keepsHandles (s s1 : Sys) : Prop :=
  s1.client.conn = s.client.conn ∧ (s.client.wg ≠ none → s1.client.wg ≠ none)

/-! # Properties -/

/-! ## Deliveries of the streaming adapter -/

theorem delivered_sendFakeEvent (c : Client) (w : World) (event : Event) (cb : Callback)
    (h : c.onReceived = some cb) :
    (sendFakeEvent c w event).delivered = w.delivered ++ [event] := by
  simp [sendFakeEvent, h]

theorem delivered_emit (env : Env) (c : Client) (w : World) (fill : Event → Event)
    (cb : Callback) (h : c.onReceived = some cb) :
    (emit env c w fill).delivered = w.delivered ++
      [fill { eventID := "event" ++ fmtInt (env.clock w.tick),
              clientTimestamp := env.clock (w.tick + 1) / 1000000 }] := by
  simp [emit, nowNano, nowMilli, delivered_sendFakeEvent _ _ _ cb h]

/-- The line loop delivers only `response.text.delta` events and its result
is the starting text followed by their deltas. -/
theorem consumeLines_deliveries (env : Env) (c : Client) (cb : Callback)
    (h : c.onReceived = some cb) (responseID itemID : String) (lines : List (List Char)) :
    ∀ (fullText : String) (w : World), ∃ ds : List Event,
      (consumeLines env c responseID itemID lines fullText w).2.delivered = w.delivered ++ ds
      ∧ (∀ d ∈ ds, d.type = "response.text.delta")
      ∧ (consumeLines env c responseID itemID lines fullText w).1
          = fullText ++ concatAll (ds.map fun d => d.delta) := by
  induction lines with
  | nil => intro fullText w; exact ⟨[], by simp [consumeLines, concatAll]⟩
  | cons raw rest ih =>
    intro fullText w
    unfold consumeLines
    simp only []
    split
    · exact ih fullText w
    · split
      · exact ⟨[], by simp [concatAll]⟩
      · split
        · exact ih fullText w
        · split
          · exact ih fullText w
          · rename_i content _
            obtain ⟨ds, h1, h2, h3⟩ := ih (fullText ++ content) (emit env c w fun e =>
                { e with type := "response.text.delta", responseID := responseID,
                         itemID := itemID, delta := content })
            refine ⟨{ eventID := "event" ++ fmtInt (env.clock w.tick),
                      clientTimestamp := env.clock (w.tick + 1) / 1000000,
                      type := "response.text.delta", responseID := responseID,
                      itemID := itemID, delta := content } :: ds, ?_, ?_, ?_⟩
            · rw [h1, delivered_emit env c w _ cb h]; simp
            · intro d hd
              rcases List.mem_cons.mp hd with rfl | hd
              · rfl
              · exact h2 d hd
            · rw [h3]; simp [concatAll, String.append_assoc]

/-- The deliveries of the 200 branch, for any starting world. -/
theorem streamResponse_deliveries (env : Env) (c : Client) (cb : Callback) (w : World)
    (body : String) (h : c.onReceived = some cb) :
    ∃ (created added textDone finished : Event) (deltas : List Event),
      (streamResponse env c w body).delivered
        = w.delivered ++ ([created, added] ++ deltas ++ [textDone, finished])
      ∧ created.type = "response.created"
      ∧ added.type = "response.output_item.added"
      ∧ (∀ d ∈ deltas, d.type = "response.text.delta")
      ∧ textDone.type = "response.text.done"
      ∧ finished.type = "response.done"
      ∧ textDone.text = some (concatAll (deltas.map fun d => d.delta)) := by
  let responseID := "resp" ++ fmtInt (env.clock w.tick)
  let itemID := "item" ++ fmtInt (env.clock (w.tick + 1))
  let w2 : World := { w with tick := w.tick + 1 + 1 }
  let w3 := emit env c w2 fun e =>
    { e with type := "response.created", responseID := responseID }
  let w4 := emit env c w3 fun e =>
    { e with type := "response.output_item.added", responseID := responseID,
             itemID := itemID }
  obtain ⟨ds, h1, h2, h3⟩ :=
    consumeLines_deliveries env c cb h responseID itemID (readLines body) "" w4
  have hrun : streamResponse env c w body
      = emit env c (emit env c (consumeLines env c responseID itemID (readLines body) "" w4).2
          fun e => { e with type := "response.text.done", responseID := responseID,
                            itemID := itemID,
                            text := some (consumeLines env c responseID itemID
                              (readLines body) "" w4).1 })
          fun e => { e with type := "response.done", responseID := responseID } := rfl
  have h4 : w4.delivered = w.delivered ++
      [{ eventID := "event" ++ fmtInt (env.clock w2.tick),
         clientTimestamp := env.clock (w2.tick + 1) / 1000000,
         type := "response.created", responseID := responseID },
       { eventID := "event" ++ fmtInt (env.clock w3.tick),
         clientTimestamp := env.clock (w3.tick + 1) / 1000000,
         type := "response.output_item.added", responseID := responseID,
         itemID := itemID }] := by
    show (emit env c w3 _).delivered = _
    rw [delivered_emit env c w3 _ cb h]
    show (emit env c w2 _).delivered ++ _ = _
    rw [delivered_emit env c w2 _ cb h]
    simp [w2]
  rw [hrun, delivered_emit env c _ _ cb h, delivered_emit env c _ _ cb h, h1, h4]
  refine ⟨_, _, _, _, ds,
    (by simp only [List.append_assoc, List.cons_append, List.nil_append]; rfl),
    rfl, rfl, h2, rfl, rfl, ?_⟩
  simp [h3]

/-- C1: on a 200 response with any body, the events the adapter hands to the
registered callback are one `response.created`, one
`response.output_item.added`, then only `response.text.delta` events, then one
`response.text.done` and one `response.done`, in this order; the text of the
`response.text.done` event is the concatenation of the deltas in delivery
order, and the call returns no error. -/
theorem sse_event_sequence (env : Env) (c : Client) (cb : Callback) (w : World)
    (content : List ContentPart) (body : String) (h : c.onReceived = some cb) :
    ∃ (created added textDone finished : Event) (deltas : List Event),
      (sendBatchFramesTo4V env (.response 200 body) c w content).1.delivered
        = w.delivered ++ ([created, added] ++ deltas ++ [textDone, finished])
      ∧ created.type = "response.created"
      ∧ added.type = "response.output_item.added"
      ∧ (∀ d ∈ deltas, d.type = "response.text.delta")
      ∧ textDone.type = "response.text.done"
      ∧ finished.type = "response.done"
      ∧ textDone.text = some (concatAll (deltas.map fun d => d.delta))
      ∧ (sendBatchFramesTo4V env (.response 200 body) c w content).2 = none := by
  obtain ⟨e1, e2, e3, e4, ds, h1, h2⟩ := streamResponse_deliveries env c cb
    { w with dispatched := w.dispatched ++ [content],
             requests := w.requests ++ [requestBody content] } body h
  exact ⟨e1, e2, e3, e4, ds, h1, h2.1, h2.2.1, h2.2.2.1, h2.2.2.2.1, h2.2.2.2.2.1,
    h2.2.2.2.2.2, rfl⟩

/-- The hypothesis of `sse_event_sequence` holds for the sample client, and
the theorem applies to the body with the chunks `A`, `B`, `C`. -/
theorem sse_event_sequence_witness :
    sampleSys.client.onReceived = some acceptAll ∧
    ∃ (created added textDone finished : Event) (deltas : List Event),
      (sendBatchFramesTo4V sampleEnv (.response 200 abcBody) sampleSys.client
          sampleSys.world []).1.delivered
        = sampleSys.world.delivered ++ ([created, added] ++ deltas ++ [textDone, finished])
      ∧ created.type = "response.created"
      ∧ added.type = "response.output_item.added"
      ∧ (∀ d ∈ deltas, d.type = "response.text.delta")
      ∧ textDone.type = "response.text.done"
      ∧ finished.type = "response.done"
      ∧ textDone.text = some (concatAll (deltas.map fun d => d.delta))
      ∧ (sendBatchFramesTo4V sampleEnv (.response 200 abcBody) sampleSys.client
          sampleSys.world []).2 = none :=
  ⟨rfl, sse_event_sequence sampleEnv sampleSys.client acceptAll sampleSys.world []
    abcBody rfl⟩

/-- The worked example of C1: the chunks `A`, `B`, `C` followed by the end
marker give three deltas `A`, `B`, `C` between the opening events and a
`response.text.done` whose text is `ABC`, followed by one `response.done`. -/
theorem sse_abc_example :
    (sendBatchFramesTo4V sampleEnv (.response 200 abcBody) sampleSys.client
        sampleSys.world []).1.delivered.map (fun e => (e.type, e.delta, e.text))
      = [("response.created", "", none),
         ("response.output_item.added", "", none),
         ("response.text.delta", "A", none),
         ("response.text.delta", "B", none),
         ("response.text.delta", "C", none),
         ("response.text.done", "", some "ABC"),
         ("response.done", "", none)] := by
  decide

/-! ## What the adapter leaves alone -/

theorem sameTransport_refl (w : World) : sameTransport w w := by
  simp [sameTransport]

theorem sameTransport_trans {w w1 w2 : World} (h1 : sameTransport w w1)
    (h2 : sameTransport w1 w2) : sameTransport w w2 := by
  simp only [sameTransport] at *
  obtain ⟨a1, a2, a3, a4, a5, a6, a7, a8⟩ := h1
  obtain ⟨b1, b2, b3, b4, b5, b6, b7, b8⟩ := h2
  exact ⟨b1.trans a1, b2.trans a2, b3.trans a3, b4.trans a4, b5.trans a5, b6.trans a6,
    b7.trans a7, b8.trans a8⟩

theorem sameTransport_emit (env : Env) (c : Client) (w : World) (fill : Event → Event) :
    sameTransport w (emit env c w fill) := by
  unfold emit sendFakeEvent nowNano nowMilli
  cases c.onReceived <;> simp [sameTransport]

theorem sameTransport_consumeLines (env : Env) (c : Client) (responseID itemID : String)
    (lines : List (List Char)) :
    ∀ (fullText : String) (w : World),
      sameTransport w (consumeLines env c responseID itemID lines fullText w).2 := by
  induction lines with
  | nil => intro fullText w; exact sameTransport_refl w
  | cons raw rest ih =>
    intro fullText w
    unfold consumeLines
    simp only []
    split
    · exact ih fullText w
    · split
      · exact sameTransport_refl w
      · split
        · exact ih fullText w
        · split
          · exact ih fullText w
          · exact sameTransport_trans (sameTransport_emit env c w _) (ih _ _)

theorem sameTransport_streamResponse (env : Env) (c : Client) (w : World) (body : String) :
    sameTransport w (streamResponse env c w body) := by
  unfold streamResponse
  simp only [nowNano]
  refine sameTransport_trans ?_ (sameTransport_emit env c _ _)
  refine sameTransport_trans ?_ (sameTransport_emit env c _ _)
  refine sameTransport_trans ?_ (sameTransport_consumeLines env c _ _ _ _ _)
  refine sameTransport_trans ?_ (sameTransport_emit env c _ _)
  refine sameTransport_trans ?_ (sameTransport_emit env c _ _)
  simp [sameTransport]

/-- The adapter records the content it was handed and changes neither the
transport nor the flush counter. -/
theorem sendBatch_world (env : Env) (outcome : BatchOutcome) (c : Client) (w : World)
    (content : List ContentPart) :
    (sendBatchFramesTo4V env outcome c w content).1.dispatched = w.dispatched ++ [content]
    ∧ (sendBatchFramesTo4V env outcome c w content).1.flushCalls = w.flushCalls
    ∧ (sendBatchFramesTo4V env outcome c w content).1.handshakes = w.handshakes
    ∧ (sendBatchFramesTo4V env outcome c w content).1.closes = w.closes
    ∧ (sendBatchFramesTo4V env outcome c w content).1.openConns = w.openConns
    ∧ (sendBatchFramesTo4V env outcome c w content).1.written = w.written
    ∧ (sendBatchFramesTo4V env outcome c w content).1.loops = w.loops := by
  cases outcome with
  | marshalError msg => simp [sendBatchFramesTo4V]
  | requestError msg => simp [sendBatchFramesTo4V]
  | doError msg => simp [sendBatchFramesTo4V]
  | response status body =>
    by_cases hs : status = 200
    · have h := sameTransport_streamResponse env c
        { w with dispatched := w.dispatched ++ [content],
                 requests := w.requests ++ [requestBody content] } body
      simp only [sameTransport] at h
      simp only [sendBatchFramesTo4V, hs, ne_eq, not_true_eq_false, if_false]
      exact ⟨h.2.2.2.2.2.2.1, h.2.2.2.2.2.1, h.1, h.2.1, h.2.2.1, h.2.2.2.1, h.2.2.2.2.1⟩
    · simp [sendBatchFramesTo4V, hs]

/-! ## The frame buffer -/

theorem foldl_append_singleton {α β : Type} (g : α → β) (xs : List α) :
    ∀ init : List β, xs.foldl (fun acc x => acc ++ [g x]) init = init ++ xs.map g := by
  induction xs with
  | nil => intro init; simp
  | cons x xs ih => intro init; simp [ih]

/-- The contents dispatched by a flush: those before it, followed by the
reference array when the buffer is not empty. -/
theorem flush_dispatched (env : Env) (outcome : BatchOutcome) (s : Sys) :
    (FlushVideoFrames env outcome s).1.world.dispatched
        = s.world.dispatched
            ++ (flushReference s.client.videoFrames s.client.instructions).toList := by
  cases hf : s.client.videoFrames with
  | nil => simp [FlushVideoFrames, hf, flushReference]
  | cons f fs =>
    have hlen : ¬ (f :: fs).length = 0 := by simp
    simp only [FlushVideoFrames, hf, hlen, if_false, flushReference, Option.toList]
    rw [(sendBatch_world env outcome _ _ _).1]
    simp only [foldl_append_singleton, imagePart, fallbackPrompt, List.nil_append,
      List.singleton_append, List.map_cons]
    by_cases hi : s.client.instructions = "" <;> simp [hi]

/-- C2: what `FlushVideoFrames` hands to the adapter is the reference: with
an empty buffer nothing is dispatched, no request is sent and success is
returned; with `k ≥ 1` frames exactly one content array is dispatched, the
text entry followed by the image entries of the frames in append order, so
`k + 1` entries. -/
theorem flush_dispatch_reference (env : Env) (outcome : BatchOutcome) (s : Sys) :
    (FlushVideoFrames env outcome s).1.world.dispatched
        = s.world.dispatched
            ++ (flushReference s.client.videoFrames s.client.instructions).toList
    ∧ (s.client.videoFrames = [] →
        (FlushVideoFrames env outcome s).2 = none
        ∧ (FlushVideoFrames env outcome s).1.world.requests = s.world.requests)
    ∧ (∀ content, flushReference s.client.videoFrames s.client.instructions = some content →
        content.length = s.client.videoFrames.length + 1) := by
  refine ⟨flush_dispatched env outcome s, ?_, ?_⟩
  · intro hf
    simp [FlushVideoFrames, hf]
  · intro content hc
    cases hf : s.client.videoFrames with
    | nil => simp [hf, flushReference] at hc
    | cons f fs =>
      simp only [hf, flushReference, Option.some.injEq] at hc
      subst hc
      simp

/-- The worked examples of C2: a flush of an empty buffer sends no request
and succeeds; a flush of three frames dispatches four entries. -/
theorem flush_examples :
    (FlushVideoFrames sampleEnv (.response 200 abcBody) sampleSys).1.world.requests = []
    ∧ (FlushVideoFrames sampleEnv (.response 200 abcBody) sampleSys).2 = none
    ∧ (FlushVideoFrames sampleEnv (.doError "unreachable")
        { sampleSys with client :=
            { sampleSys.client with videoFrames := [[77, 97, 110], [77, 97], [77]] } }).1.world.dispatched
      = [[.text "请描述这个视频的内容",
          .imageUrl "data:image/jpeg;base64,TWFu",
          .imageUrl "data:image/jpeg;base64,TWE=",
          .imageUrl "data:image/jpeg;base64,TQ=="]] := by
  decide

/-- A valid event that leaves the buffer below the threshold is appended and
nothing else happens: no error, no flush, no dispatch, no delivery. -/
theorem sendFrame_below (env : Env) (outcome : BatchOutcome) (s : Sys) (event : Event)
    (hv : validFrameEvent env event)
    (hlt : ((s.client.videoFrames.length + 1 : Nat) : Int) < s.client.maxFrameCount) :
    (SendFrameByVideo env outcome s event).2.2 = none
    ∧ (SendFrameByVideo env outcome s event).1.client
        = { s.client with videoFrames := s.client.videoFrames ++ [event.videoFrame] }
    ∧ sameTransport s.world (SendFrameByVideo env outcome s event).1.world
    ∧ (SendFrameByVideo env outcome s event).1.world.delivered = s.world.delivered := by
  obtain ⟨ht, hf⟩ := hv
  have h1 : ¬ env.videoAppend ≠ event.type := by simp [ht]
  have h2 : ¬ event.videoFrame.length = 0 := by simpa using hf
  have h3 : ¬ ((s.client.videoFrames.length : Int) + 1 ≥ s.client.maxFrameCount) := by
    push_cast at hlt; omega
  by_cases hts : event.clientTimestamp ≤ 0 <;>
    simp [SendFrameByVideo, h1, h2, h3, hts, nowMilli, sameTransport]

/-- A valid event that brings the buffer to the threshold is appended and
the call is then the flush of the buffer with that event's frame last. -/
theorem sendFrame_at_threshold (env : Env) (outcome : BatchOutcome) (s : Sys) (event : Event)
    (hv : validFrameEvent env event)
    (hge : s.client.maxFrameCount ≤ ((s.client.videoFrames.length + 1 : Nat) : Int)) :
    ∃ w : World, sameTransport s.world w ∧ w.delivered = s.world.delivered
      ∧ ((SendFrameByVideo env outcome s event).1, (SendFrameByVideo env outcome s event).2.2)
        = FlushVideoFrames env outcome
            { client := { s.client with
                            videoFrames := s.client.videoFrames ++ [event.videoFrame] },
              world := w } := by
  obtain ⟨ht, hf⟩ := hv
  have h1 : ¬ env.videoAppend ≠ event.type := by simp [ht]
  have h2 : ¬ event.videoFrame.length = 0 := by simpa using hf
  have h3 : (s.client.videoFrames.length : Int) + 1 ≥ s.client.maxFrameCount := by
    push_cast at hge; omega
  by_cases hts : event.clientTimestamp ≤ 0
  · refine ⟨{ s.world with tick := s.world.tick + 1 }, by simp [sameTransport], rfl, ?_⟩
    simp [SendFrameByVideo, h1, h2, h3, hts, nowMilli]
  · refine ⟨s.world, sameTransport_refl _, rfl, ?_⟩
    simp [SendFrameByVideo, h1, h2, h3, hts]

/-- A run of valid events that stays below the threshold only fills the
buffer. -/
theorem sendFrames_below (env : Env) (evs : List (Event × BatchOutcome)) :
    ∀ s : Sys, (∀ p ∈ evs, validFrameEvent env p.1) →
      ((s.client.videoFrames.length + evs.length : Nat) : Int) < s.client.maxFrameCount →
      (sendFrames env evs s).2 = List.replicate evs.length none
      ∧ (sendFrames env evs s).1.client
          = { s.client with
                videoFrames := s.client.videoFrames ++ evs.map fun p => p.1.videoFrame }
      ∧ sameTransport s.world (sendFrames env evs s).1.world
      ∧ (sendFrames env evs s).1.world.delivered = s.world.delivered := by
  induction evs with
  | nil => intro s _ _; simp [sendFrames, sameTransport_refl]
  | cons p rest ih =>
    intro s hv hlt
    obtain ⟨event, outcome⟩ := p
    have hv1 : validFrameEvent env event := hv (event, outcome) (List.mem_cons_self _ _)
    have hlt1 : ((s.client.videoFrames.length + 1 : Nat) : Int) < s.client.maxFrameCount := by
      simp only [List.length_cons] at hlt; push_cast at hlt ⊢; omega
    obtain ⟨a1, a2, a3, a4⟩ := sendFrame_below env outcome s event hv1 hlt1
    have hrest := ih (SendFrameByVideo env outcome s event).1
      (fun q hq => hv q (List.mem_cons_of_mem _ hq))
      (by rw [a2]; simp only [List.length_cons, List.length_append, List.length_singleton,
            List.length_nil] at hlt ⊢
          push_cast at hlt ⊢; omega)
    obtain ⟨b1, b2, b3, b4⟩ := hrest
    refine ⟨?_, ?_, sameTransport_trans a3 b3, by rw [← a4]; exact b4⟩
    · simp [sendFrames, a1, b1, List.replicate_succ]
    · simp only [sendFrames]
      rw [b2, a2]
      simp

theorem flush_client (env : Env) (outcome : BatchOutcome) (s : Sys) :
    (FlushVideoFrames env outcome s).1.client = { s.client with videoFrames := [] } := by
  unfold FlushVideoFrames
  simp only []
  split <;> rfl

theorem flush_flushCalls (env : Env) (outcome : BatchOutcome) (s : Sys) :
    (FlushVideoFrames env outcome s).1.world.flushCalls = s.world.flushCalls + 1 := by
  unfold FlushVideoFrames
  simp only []
  split
  · rfl
  · exact (sendBatch_world env outcome _ _ _).2.1

theorem sendBatch_result (env : Env) (outcome : BatchOutcome) (c : Client) (w : World)
    (content : List ContentPart) :
    (sendBatchFramesTo4V env outcome c w content).2 = outcomeError outcome := by
  cases outcome <;> simp [sendBatchFramesTo4V, outcomeError]
  split <;> simp_all

theorem flush_result (env : Env) (outcome : BatchOutcome) (s : Sys) :
    (FlushVideoFrames env outcome s).2
      = if s.client.videoFrames = [] then none else outcomeError outcome := by
  unfold FlushVideoFrames
  simp only []
  cases hf : s.client.videoFrames with
  | nil => simp
  | cons f fs => simp [sendBatch_result]

/-- C3: from a fresh client (threshold 10), with valid video-append events
sent one at a time: after each of the first `k ≤ 9` calls every result so far
is success, no flush has been invoked, nothing has been dispatched and the
buffer holds the `k` frames in order; the tenth call invokes the flush once,
the flush dispatches one content array, the text entry followed by the ten
frames in append order (11 entries), the call returns the result of that
flush, the buffer is empty afterwards, and a further flush finds no frame:
it returns success and dispatches nothing. -/
theorem threshold_flush (env : Env) (url apiKey : String) (cb : Option Callback)
    (pre : List (Event × BatchOutcome)) (last : Event) (outcome next : BatchOutcome)
    (hlen : pre.length = 9) (hv : ∀ p ∈ pre, validFrameEvent env p.1)
    (hl : validFrameEvent env last) :
    (∀ k, k ≤ 9 →
      (sendFrames env (pre.take k) (freshSys url apiKey cb)).2 = List.replicate k none
      ∧ (sendFrames env (pre.take k) (freshSys url apiKey cb)).1.world.flushCalls = 0
      ∧ (sendFrames env (pre.take k) (freshSys url apiKey cb)).1.world.dispatched = []
      ∧ (sendFrames env (pre.take k) (freshSys url apiKey cb)).1.world.requests = []
      ∧ (sendFrames env (pre.take k) (freshSys url apiKey cb)).1.client.videoFrames
          = (pre.take k).map (fun p => p.1.videoFrame)
      ∧ (sendFrames env (pre.take k) (freshSys url apiKey cb)).1.client.videoFrames.length = k)
    ∧ (SendFrameByVideo env outcome (sendFrames env pre (freshSys url apiKey cb)).1 last).1.world.flushCalls
        = 1
    ∧ (SendFrameByVideo env outcome (sendFrames env pre (freshSys url apiKey cb)).1 last).1.world.dispatched
        = [ContentPart.text fallbackPrompt
            :: (pre.map (fun p => p.1.videoFrame) ++ [last.videoFrame]).map imagePart]
    ∧ (ContentPart.text fallbackPrompt
        :: (pre.map (fun p => p.1.videoFrame) ++ [last.videoFrame]).map imagePart).length = 11
    ∧ (∃ w : World,
        ((SendFrameByVideo env outcome (sendFrames env pre (freshSys url apiKey cb)).1 last).1,
         (SendFrameByVideo env outcome (sendFrames env pre (freshSys url apiKey cb)).1 last).2.2)
        = FlushVideoFrames env outcome
            { client := { NewRealtimeClient url apiKey cb with
                            videoFrames := pre.map (fun p => p.1.videoFrame) ++ [last.videoFrame] },
              world := w })
    ∧ (SendFrameByVideo env outcome (sendFrames env pre (freshSys url apiKey cb)).1 last).2.2
        = outcomeError outcome
    ∧ (SendFrameByVideo env outcome (sendFrames env pre (freshSys url apiKey cb)).1 last).1.client.videoFrames
        = []
    ∧ (FlushVideoFrames env next
        (SendFrameByVideo env outcome (sendFrames env pre (freshSys url apiKey cb)).1 last).1).2 = none
    ∧ (FlushVideoFrames env next
        (SendFrameByVideo env outcome (sendFrames env pre (freshSys url apiKey cb)).1 last).1).1.world.dispatched
        = (SendFrameByVideo env outcome (sendFrames env pre (freshSys url apiKey cb)).1 last).1.world.dispatched := by
  have hfresh : (freshSys url apiKey cb).client.videoFrames = [] := rfl
  have hmax : (freshSys url apiKey cb).client.maxFrameCount = 10 := rfl
  have hbelow : ∀ k, k ≤ 9 → _ := fun k hk =>
    sendFrames_below env (pre.take k) (freshSys url apiKey cb)
      (fun p hp => hv p (List.mem_of_mem_take hp))
      (by rw [hfresh, hmax]; simp only [List.length_nil, List.length_take]; omega)
  refine ⟨?_, ?_⟩
  · intro k hk
    obtain ⟨b1, b2, b3, _⟩ := hbelow k hk
    have hk' : (pre.take k).length = k := by simp [List.length_take, hlen, hk]
    simp only [sameTransport] at b3
    refine ⟨by rw [b1, hk'], by rw [b3.2.2.2.2.2.1]; rfl, by rw [b3.2.2.2.2.2.2.1]; rfl,
      by rw [b3.2.2.2.2.2.2.2]; rfl, by rw [b2]; simp [hfresh], by rw [b2]; simp [hfresh, hlen, hk]⟩
  · obtain ⟨b1, b2, b3, _⟩ := hbelow 9 (le_refl 9)
    have htake : pre.take 9 = pre := by rw [← hlen]; exact List.take_length pre
    rw [htake] at b1 b2 b3
    simp only [sameTransport] at b3
    generalize hs9 : (sendFrames env pre (freshSys url apiKey cb)).1 = s9 at b2 b3 ⊢
    have hc9 : s9.client = { NewRealtimeClient url apiKey cb with
        videoFrames := pre.map (fun p => p.1.videoFrame) } := by
      rw [b2]; simp [freshSys, NewRealtimeClient]
    have hge : s9.client.maxFrameCount ≤ ((s9.client.videoFrames.length + 1 : Nat) : Int) := by
      rw [hc9]; simp [NewRealtimeClient, hlen]
    obtain ⟨w, hw1, _, hw3⟩ := sendFrame_at_threshold env outcome s9 last hl hge
    have hcl : ({ s9.client with videoFrames := s9.client.videoFrames ++ [last.videoFrame] } : Client)
        = { NewRealtimeClient url apiKey cb with
              videoFrames := pre.map (fun p => p.1.videoFrame) ++ [last.videoFrame] } := by
      rw [hc9]
    rw [hcl] at hw3
    have e1 := congrArg Prod.fst hw3
    have e2 := congrArg Prod.snd hw3
    simp only at e1 e2
    simp only [sameTransport] at hw1
    have hne : pre.map (fun p => p.1.videoFrame) ++ [last.videoFrame] ≠ [] := by simp
    refine ⟨?_, ?_, ?_, ⟨w, hw3⟩, ?_, ?_, ?_, ?_⟩
    · rw [e1, flush_flushCalls]
      show w.flushCalls + 1 = 1
      rw [hw1.2.2.2.2.2.1, b3.2.2.2.2.2.1]; rfl
    · rw [e1, flush_dispatched env outcome _]
      show w.dispatched ++ _ = _
      rw [hw1.2.2.2.2.2.2.1, b3.2.2.2.2.2.2.1]
      cases hpf : pre.map (fun p => p.1.videoFrame) ++ [last.videoFrame] with
      | nil => exact absurd hpf hne
      | cons f fs => simp [freshSys, flushReference, NewRealtimeClient, hpf, imagePart, fallbackPrompt]
    · simp [hlen]
    · rw [e2, flush_result]; simp
    · rw [e1, flush_client]
    · rw [flush_result, e1, flush_client]; simp
    · rw [flush_dispatched env next _, e1, flush_client]; simp [flushReference]

/-- The hypotheses of `threshold_flush` hold for nine sample events and a
tenth, and the tenth call flushes once and leaves the buffer empty. -/
theorem threshold_flush_witness :
    samplePre.length = 9
    ∧ (∀ p ∈ samplePre, validFrameEvent sampleEnv p.1)
    ∧ validFrameEvent sampleEnv (sampleFrameEvent 9)
    ∧ (SendFrameByVideo sampleEnv (.doError "unreachable")
        (sendFrames sampleEnv samplePre
          (freshSys "wss://example.org/realtime" "key" (some acceptAll))).1
        (sampleFrameEvent 9)).1.world.flushCalls = 1
    ∧ (SendFrameByVideo sampleEnv (.doError "unreachable")
        (sendFrames sampleEnv samplePre
          (freshSys "wss://example.org/realtime" "key" (some acceptAll))).1
        (sampleFrameEvent 9)).1.client.videoFrames = [] :=
  have h := threshold_flush sampleEnv "wss://example.org/realtime" "key" (some acceptAll)
    samplePre (sampleFrameEvent 9) (.doError "unreachable") (.doError "unreachable")
    (by decide) (by decide) (by decide)
  ⟨by decide, by decide, by decide, h.2.1, h.2.2.2.2.2.2.1⟩

/-- C4: after `FlushVideoFrames` the buffer is empty whatever the adapter
answered, and with a non-empty buffer every failure (marshalling, building
the request, the network, a status other than 200) is returned to the caller
as the error of the call. -/
theorem flush_empties_buffer (env : Env) (s : Sys) :
    (∀ outcome, (FlushVideoFrames env outcome s).1.client.videoFrames = [])
    ∧ (s.client.videoFrames ≠ [] →
        (∀ msg, (FlushVideoFrames env (.marshalError msg) s).2 = some msg)
        ∧ (∀ msg, (FlushVideoFrames env (.requestError msg) s).2 = some msg)
        ∧ (∀ msg, (FlushVideoFrames env (.doError msg) s).2 = some msg)
        ∧ (∀ status body, status ≠ 200 →
            (FlushVideoFrames env (.response status body) s).2
              = some ("API Error: " ++ body))) := by
  refine ⟨fun outcome => by rw [flush_client], fun hne => ⟨?_, ?_, ?_, ?_⟩⟩
  · intro msg; rw [flush_result]; simp [hne, outcomeError]
  · intro msg; rw [flush_result]; simp [hne, outcomeError]
  · intro msg; rw [flush_result]; simp [hne, outcomeError]
  · intro status body hs; rw [flush_result]; simp [hne, outcomeError, hs]

/-- The worked example of C4: three frames are buffered, the network fails,
the error comes back and the buffer is empty. -/
theorem flush_failure_example :
    (FlushVideoFrames sampleEnv (.doError "connection refused")
        { sampleSys with client :=
            { sampleSys.client with videoFrames := [[77, 97, 110], [77, 97], [77]] } }).2
      = some "connection refused"
    ∧ (FlushVideoFrames sampleEnv (.doError "connection refused")
        { sampleSys with client :=
            { sampleSys.client with videoFrames := [[77, 97, 110], [77, 97], [77]] } }).1.client.videoFrames
      = [] := by
  decide

/-- C5: an event of another type, or with an empty payload, gets a
validation error and the call changes nothing: the client, the world and the
event come back as they were.  A video-append event with a non-empty payload
is appended as the last element of the buffer; the call then ends with
success when the buffer is below the threshold, and otherwise is the flush of
the buffer that ends with this payload. -/
theorem sendFrame_validation (env : Env) (outcome : BatchOutcome) (s : Sys) (event : Event) :
    ((env.videoAppend ≠ event.type ∨ event.videoFrame = []) →
      ∃ msg, SendFrameByVideo env outcome s event = (s, event, some msg)
        ∧ (msg = "event type is not RealtimeClientVideoAppend"
            ∨ msg = "event videoFrame is empty"))
    ∧ (validFrameEvent env event →
      ∃ w : World, sameTransport s.world w ∧ w.delivered = s.world.delivered
        ∧ (((s.client.videoFrames.length + 1 : Nat) : Int) < s.client.maxFrameCount →
            (SendFrameByVideo env outcome s event).2.2 = none
            ∧ (SendFrameByVideo env outcome s event).1
                = { client := { s.client with
                      videoFrames := s.client.videoFrames ++ [event.videoFrame] },
                    world := w })
        ∧ (s.client.maxFrameCount ≤ ((s.client.videoFrames.length + 1 : Nat) : Int) →
            ((SendFrameByVideo env outcome s event).1,
              (SendFrameByVideo env outcome s event).2.2)
              = FlushVideoFrames env outcome
                  { client := { s.client with
                      videoFrames := s.client.videoFrames ++ [event.videoFrame] },
                    world := w })) := by
  constructor
  · intro h
    by_cases ht : env.videoAppend ≠ event.type
    · exact ⟨_, by simp [SendFrameByVideo, ht], Or.inl rfl⟩
    · have hf : event.videoFrame = [] := h.resolve_left ht
      exact ⟨_, by simp [SendFrameByVideo, ht, hf], Or.inr rfl⟩
  · intro hv
    obtain ⟨ht, hf⟩ := hv
    have h1 : ¬ env.videoAppend ≠ event.type := by simp [ht]
    have h2 : ¬ event.videoFrame.length = 0 := by simpa using hf
    by_cases hts : event.clientTimestamp ≤ 0
    · refine ⟨{ s.world with tick := s.world.tick + 1 }, by simp [sameTransport], rfl, ?_, ?_⟩
      · intro hlt
        have h3 : ¬ ((s.client.videoFrames.length : Int) + 1 ≥ s.client.maxFrameCount) := by
          push_cast at hlt; omega
        simp [SendFrameByVideo, h1, h2, h3, hts, nowMilli]
      · intro hge
        have h3 : (s.client.videoFrames.length : Int) + 1 ≥ s.client.maxFrameCount := by
          push_cast at hge; omega
        simp [SendFrameByVideo, h1, h2, h3, hts, nowMilli]
    · refine ⟨s.world, sameTransport_refl _, rfl, ?_, ?_⟩
      · intro hlt
        have h3 : ¬ ((s.client.videoFrames.length : Int) + 1 ≥ s.client.maxFrameCount) := by
          push_cast at hlt; omega
        simp [SendFrameByVideo, h1, h2, h3, hts]
      · intro hge
        have h3 : (s.client.videoFrames.length : Int) + 1 ≥ s.client.maxFrameCount := by
          push_cast at hge; omega
        simp [SendFrameByVideo, h1, h2, h3, hts]

/-- The worked example of C5: an event of another type and an event without
payload are refused and leave the sample client and the event alone. -/
theorem sendFrame_validation_example :
    SendFrameByVideo sampleEnv (.doError "unreachable") sampleSys
        { type := "response.create", videoFrame := [1, 2, 3] }
      = (sampleSys, { type := "response.create", videoFrame := [1, 2, 3] },
          some "event type is not RealtimeClientVideoAppend")
    ∧ SendFrameByVideo sampleEnv (.doError "unreachable") sampleSys
        { type := "input_audio_buffer.append_video_frame" }
      = (sampleSys, { type := "input_audio_buffer.append_video_frame" },
          some "event videoFrame is empty") :=
  ⟨rfl, rfl⟩

/-- C6: on a client whose connected flag is false, `Send` returns the
"not connected" error and hands back the client, the world and the event
unchanged, so nothing was written to the transport and the timestamp of the
event was not touched. -/
theorem send_not_connected (env : Env) (writeErr : Err) (s : Sys) (event : Event)
    (h : s.client.isConnected = false) :
    Send env writeErr s event = some (s, event, some "not connected") := by
  simp [Send, h]

/-- The hypothesis of `send_not_connected` holds for a freshly constructed
client, on which `Connect` was never called. -/
theorem send_not_connected_witness :
    (freshSys "wss://example.org/realtime" "key" (some acceptAll)).client.isConnected = false
    ∧ Send sampleEnv none (freshSys "wss://example.org/realtime" "key" (some acceptAll))
        { type := "response.create" }
      = some (freshSys "wss://example.org/realtime" "key" (some acceptAll),
              { type := "response.create" }, some "not connected") :=
  ⟨rfl, send_not_connected sampleEnv none _ _ rfl⟩

/-! ## The connection lifecycle -/

theorem sameLifecycle_refl (s : Sys) : sameLifecycle s s := ⟨rfl, rfl, rfl, rfl⟩

theorem sameLifecycle_trans {s s1 s2 : Sys} (h1 : sameLifecycle s s1)
    (h2 : sameLifecycle s1 s2) : sameLifecycle s s2 :=
  ⟨h2.1.trans h1.1, h2.2.1.trans h1.2.1, h2.2.2.1.trans h1.2.2.1, h2.2.2.2.trans h1.2.2.2⟩

theorem lifecycleInv_of_same {s s1 : Sys} (h : sameLifecycle s s1) (hi : lifecycleInv s) :
    lifecycleInv s1 := by
  obtain ⟨h1, h2, h3, h4⟩ := h
  simp only [lifecycleInv, handleOpen, h1, h2, h3, h4] at hi ⊢
  exact hi

theorem lifecycleInv_fresh (url apiKey : String) (cb : Option Callback) :
    lifecycleInv (freshSys url apiKey cb) := by
  simp [lifecycleInv, freshSys, NewRealtimeClient, handleOpen]

theorem lifecycleInv_connect (dialErr : Err) (s : Sys) (hi : lifecycleInv s) :
    lifecycleInv (Connect dialErr s).1 := by
  by_cases hc : s.client.isConnected = true
  · simpa [Connect, hc] using hi
  · cases dialErr with
    | some e =>
      obtain ⟨h1, h2, h3⟩ := hi
      simp only [Connect, hc, if_false]
      refine ⟨?_, h2, fun h hh => Nat.le_succ_of_le (h3 h hh)⟩
      simpa [handleOpen] using h1
    | none =>
      obtain ⟨h1, h2, h3⟩ := hi
      simp only [Connect, hc, if_false]
      refine ⟨by simp [handleOpen], ?_, ?_⟩
      · refine List.nodup_cons.mpr ⟨fun hm => ?_, h2⟩
        have := h3 _ hm
        omega
      · intro h hh
        rcases List.mem_cons.mp hh with rfl | hh
        · exact le_refl _
        · exact Nat.le_succ_of_le (h3 h hh)

theorem lifecycleInv_disconnect (closeErr : Err) (s s1 : Sys) (e : Err)
    (hd : Disconnect closeErr s = some (s1, e)) (hi : lifecycleInv s) :
    lifecycleInv s1 := by
  by_cases hc : s.client.isConnected = true
  · cases hh : s.client.conn with
    | none => simp [Disconnect, hc, hh] at hd
    | some h =>
      simp [Disconnect, hc, hh] at hd
      obtain ⟨rfl, _⟩ := hd
      obtain ⟨h1, h2, h3⟩ := hi
      refine ⟨?_, h2.erase h, fun x hx => h3 x (List.mem_of_mem_erase hx)⟩
      simp only [handleOpen, hh]
      simp [h2.mem_erase_iff]
  · simp [Disconnect, hc] at hd
    obtain ⟨rfl, _⟩ := hd
    exact hi

theorem sameLifecycle_loopExit (own : Bool) (s : Sys) : sameLifecycle s (loopExit own s) := by
  cases own <;> exact ⟨rfl, rfl, rfl, rfl⟩

theorem lifecycleInv_exit {own : Bool} {s1 s2 : Sys} {b : Bool}
    (h : some (loopExit own s1, false) = some (s2, b)) (hi : lifecycleInv s1) :
    lifecycleInv s2 := by
  simp only [Option.some.injEq, Prod.mk.injEq] at h
  obtain ⟨rfl, _⟩ := h
  exact lifecycleInv_of_same (sameLifecycle_loopExit own s1) hi

theorem lifecycleInv_disconnect_exit {closeErr : Err} {own : Bool} {s1 s2 : Sys} {b : Bool}
    (h : (match Disconnect closeErr s1 with
          | none => none
          | some (s, _) => some (loopExit own s, false)) = some (s2, b))
    (hi : lifecycleInv s1) : lifecycleInv s2 := by
  cases hd : Disconnect closeErr s1 with
  | none => simp [hd] at h
  | some r =>
    obtain ⟨x, e⟩ := r
    simp only [hd] at h
    exact lifecycleInv_exit h (lifecycleInv_disconnect closeErr s1 x e hd hi)

/-- A pass of the receive loop keeps the lifecycle invariant. -/
theorem lifecycleInv_receive (env : Env) (deadline : Int) (rd : ReadResult) (closeErr : Err)
    (own : Bool) (s s1 : Sys) (b : Bool)
    (h : readWsMsgIter env deadline rd closeErr own s = some (s1, b))
    (hi : lifecycleInv s) : lifecycleInv s1 := by
  unfold readWsMsgIter at h
  simp only [IsConnected, nowNano] at h
  split at h
  · exact lifecycleInv_exit h hi
  · split at h
    · exact lifecycleInv_exit h (lifecycleInv_of_same ⟨rfl, rfl, rfl, rfl⟩ hi)
    · split at h
      · simp at h
      · split at h
        · exact lifecycleInv_exit h (lifecycleInv_of_same ⟨rfl, rfl, rfl, rfl⟩ hi)
        · split at h
          · simp at h
            obtain ⟨rfl, _⟩ := h
            exact lifecycleInv_of_same ⟨rfl, rfl, rfl, rfl⟩ hi
          · split at h
            · exact lifecycleInv_disconnect_exit h (lifecycleInv_of_same ⟨rfl, rfl, rfl, rfl⟩ hi)
            · rename_i event _
              have hs : ∀ x : Sys, sameLifecycle s x → sameLifecycle s
                  (match event.session with
                    | some session =>
                      if event.type = "session.update" ∧ session.instructions ≠ "" then
                        { x with client := { x.client with instructions := session.instructions } }
                      else x
                    | none => x) := by
                intro x hx
                split
                · split
                  · exact hx
                  · exact hx
                · exact hx
              split at h
              · refine lifecycleInv_disconnect_exit h (lifecycleInv_of_same ?_ hi)
                have := hs _ (⟨rfl, rfl, rfl, rfl⟩ : sameLifecycle s { s with world := (nowNano env { s.world with tick := s.world.tick + 1 }).2 })
                exact ⟨this.1, this.2.1, this.2.2.1, this.2.2.2⟩
              · simp at h
                obtain ⟨rfl, _⟩ := h
                have := hs _ (⟨rfl, rfl, rfl, rfl⟩ : sameLifecycle s { s with world := (nowNano env { s.world with tick := s.world.tick + 1 }).2 })
                exact lifecycleInv_of_same ⟨this.1, this.2.1, this.2.2.1, this.2.2.2⟩ hi


theorem sameLifecycle_send (env : Env) (writeErr : Err) (s : Sys) (event : Event)
    (r : Sys × Event × Err) (h : Send env writeErr s event = some r) : sameLifecycle s r.1 := by
  by_cases hc : s.client.isConnected = true
  · cases hh : s.client.conn with
    | none => simp [Send, hc, hh] at h
    | some x =>
      by_cases hts : event.clientTimestamp ≤ 0 <;>
        simp [Send, hc, hh, hts, nowMilli] at h <;>
        (subst h; exact ⟨rfl, rfl, rfl, rfl⟩)
  · simp [Send, hc] at h
    subst h
    exact sameLifecycle_refl s

theorem lifecycleInv_step (env : Env) (s s1 : Sys) (a : Action)
    (h : step env s a = some s1) (hi : lifecycleInv s) : lifecycleInv s1 := by
  cases a with
  | connect dialErr =>
    simp only [step, Option.some.injEq] at h
    subst h
    exact lifecycleInv_connect dialErr s hi
  | disconnect closeErr =>
    simp only [step, Option.map_eq_some'] at h
    obtain ⟨r, hr, rfl⟩ := h
    exact lifecycleInv_disconnect closeErr s r.1 r.2 hr hi
  | send event writeErr =>
    simp only [step, Option.map_eq_some'] at h
    obtain ⟨r, hr, rfl⟩ := h
    exact lifecycleInv_of_same (sameLifecycle_send env writeErr s event r hr) hi
  | wait =>
    simp only [step, Wait] at h
    split at h
    · simp at h
    · simp at h; subst h; exact hi
  | receive deadline rd closeErr =>
    simp only [step] at h
    split at h
    · simp at h
    · simp only [Option.map_eq_some'] at h
      obtain ⟨r, hr, rfl⟩ := h
      exact lifecycleInv_receive env deadline rd closeErr _ s r.1 r.2 hr hi
  | receiveEarlier deadline rd closeErr =>
    simp only [step] at h
    split at h
    · simp at h
    · simp only [Option.map_eq_some'] at h
      obtain ⟨r, hr, rfl⟩ := h
      exact lifecycleInv_receive env deadline rd closeErr _ s r.1 r.2 hr hi

theorem lifecycleInv_run (env : Env) (actions : List Action) :
    ∀ s s1 : Sys, run env actions s = some s1 → lifecycleInv s → lifecycleInv s1 := by
  induction actions with
  | nil => intro s s1 h hi; simp [run] at h; subst h; exact hi
  | cons a rest ih =>
    intro s s1 h hi
    simp only [run] at h
    cases hs : step env s a with
    | none => simp [hs] at h
    | some s2 =>
      simp only [hs] at h
      exact ih s2 s1 h (lifecycleInv_step env s s2 a hs hi)

/-- Every reachable state satisfies the lifecycle invariant. -/
theorem lifecycleInv_reachable (env : Env) (s : Sys) (h : Reachable env s) : lifecycleInv s := by
  obtain ⟨url, apiKey, cb, actions, hr⟩ := h
  exact lifecycleInv_run env actions _ s hr (lifecycleInv_fresh url apiKey cb)

/-- C8, as stated, fails: after a successful `Connect` and a pass of the
receive loop whose read returns an error, the flag is true and the handle is
open, but no receive loop is running. -/
theorem connected_without_loop_counterexample :
    ∃ s, Reachable sampleEnv s
      ∧ run sampleEnv [.connect none, .receive farDeadline (.error "EOF") none] sampleSys = some s
      ∧ s.client.isConnected = true ∧ handleOpen s ∧ ¬ loopActive s
      ∧ ¬ connectedIffOpenAndLoop s :=
  ⟨_, ⟨_, _, _, [.connect none, .receive farDeadline (.error "EOF") none], rfl⟩, rfl,
    by decide, by decide, by decide, by decide⟩

/-- C8, amended: in every state reachable from a fresh client through
`Connect`, `Disconnect`, `Send`, `Wait` and passes of the receive loop, the
connected flag is true exactly when the transport handle is open (dialed and
not closed by the client); in particular an open handle with a running
receive loop implies the flag. -/
theorem connected_iff_handle_open (env : Env) (s : Sys) (h : Reachable env s) :
    (s.client.isConnected = true ↔ handleOpen s)
    ∧ (handleOpen s ∧ loopActive s → s.client.isConnected = true) :=
  have hi := (lifecycleInv_reachable env s h).1
  ⟨hi, fun ho => hi.mpr ho.1⟩

/-- The hypothesis of `connected_iff_handle_open` holds for the sample client
after one successful `Connect`. -/
theorem connected_iff_handle_open_witness :
    Reachable sampleEnv connectedAccept
    ∧ (connectedAccept.client.isConnected = true ↔ handleOpen connectedAccept)
    ∧ (handleOpen connectedAccept ∧ loopActive connectedAccept →
        connectedAccept.client.isConnected = true) :=
  ⟨⟨_, _, _, [.connect none], rfl⟩,
    connected_iff_handle_open sampleEnv connectedAccept ⟨_, _, _, [.connect none], rfl⟩⟩

/-- C7, as stated, fails: when the dial fails, two calls of `Connect` dial
twice and the second call returns the dial error; and two calls of
`Disconnect` on a client that never connected close nothing. -/
theorem connect_twice_counterexample :
    (Connect (some "refused") (Connect (some "refused") sampleSys).1).1.world.handshakes = 2
    ∧ (Connect (some "refused") (Connect (some "refused") sampleSys).1).2 = some "refused"
    ∧ ∃ s1, Disconnect none sampleSys = some (s1, none)
        ∧ ∃ s2, Disconnect none s1 = some (s2, none) ∧ s2.world.closes = 0 :=
  ⟨by decide, by decide, _, rfl, _, rfl, by decide⟩

/-- C7, amended: on a disconnected client whose dial succeeds, `Connect`
returns success after one handshake and a second `Connect` returns success
without dialing and leaves the state unchanged, so the two calls perform
exactly one handshake; in any state a `Connect` that follows a successful
`Connect` is such a no-op.  On a connected client `Disconnect` performs one
close and returns its result, and a second `Disconnect` is a no-op returning
success, so the two calls perform exactly one close; in any state a
`Disconnect` that follows a `Disconnect` is such a no-op. -/
theorem connect_disconnect_idempotent (s : Sys) :
    (s.client.isConnected = false → ∀ dialErr,
      (Connect none s).2 = none
      ∧ (Connect none s).1.world.handshakes = s.world.handshakes + 1
      ∧ Connect dialErr (Connect none s).1 = ((Connect none s).1, none)
      ∧ (Connect dialErr (Connect none s).1).1.world.handshakes = s.world.handshakes + 1)
    ∧ (∀ first dialErr, (Connect first s).2 = none →
        Connect dialErr (Connect first s).1 = ((Connect first s).1, none))
    ∧ (s.client.isConnected = true → ∀ h, s.client.conn = some h → ∀ closeErr closeErr2,
        ∃ s1, Disconnect closeErr s = some (s1, closeErr)
          ∧ s1.world.closes = s.world.closes + 1
          ∧ Disconnect closeErr2 s1 = some (s1, none))
    ∧ (∀ closeErr closeErr2 s1 e, Disconnect closeErr s = some (s1, e) →
        Disconnect closeErr2 s1 = some (s1, none)) := by
  refine ⟨?_, ?_, ?_, ?_⟩
  · intro hc dialErr
    simp [Connect, hc]
  · intro first dialErr hok
    by_cases hc : s.client.isConnected = true
    · simp [Connect, hc]
    · cases first with
      | none => simp [Connect, hc]
      | some e => simp [Connect, hc] at hok
  · intro hc h hh closeErr closeErr2
    refine ⟨{ client := { s.client with isConnected := false },
              world := { s.world with closes := s.world.closes + 1,
                                      openConns := s.world.openConns.erase h } }, ?_, rfl, ?_⟩
    · simp [Disconnect, hc, hh]
    · simp [Disconnect]
  · intro closeErr closeErr2 s1 e hd
    by_cases hc : s.client.isConnected = true
    · cases hh : s.client.conn with
      | none => simp [Disconnect, hc, hh] at hd
      | some h =>
        simp [Disconnect, hc, hh] at hd
        obtain ⟨rfl, _⟩ := hd
        simp [Disconnect]
    · simp [Disconnect, hc] at hd
      obtain ⟨rfl, _⟩ := hd
      simp [Disconnect, hc]

/-- The worked example of C7: on the sample client two calls of `Connect`
with a dial that succeeds perform one handshake, and two calls of
`Disconnect` after them perform one close. -/
theorem connect_disconnect_example :
    (Connect none (Connect none sampleSys).1).1.world.handshakes = 1
    ∧ (Connect none (Connect none sampleSys).1).2 = none
    ∧ ∃ s1, Disconnect none (Connect none sampleSys).1 = some (s1, none)
        ∧ ∃ s2, Disconnect none s1 = some (s2, none) ∧ s2.world.closes = 1 :=
  ⟨by decide, by decide, _, rfl, _, rfl, by decide⟩

/-! ## The receive loop -/

/-- With non-empty instructions, a flush of a non-empty buffer dispatches the
instructions as the text entry, followed by the frames. -/
theorem flush_text_part (env : Env) (outcome : BatchOutcome) (s : Sys) (text : String)
    (ht : s.client.instructions = text) (hne : text ≠ "") (hf : s.client.videoFrames ≠ []) :
    (FlushVideoFrames env outcome s).1.world.dispatched
      = s.world.dispatched ++ [ContentPart.text text :: s.client.videoFrames.map imagePart] := by
  rw [flush_dispatched env outcome s]
  cases hv : s.client.videoFrames with
  | nil => exact absurd hv hf
  | cons f fs => simp [flushReference, ht, hne, imagePart]

theorem loopExit_world (own : Bool) (s : Sys) :
    (loopExit own s).world = { s.world with loops := s.world.loops - 1 } := rfl

theorem loopExit_isConnected (own : Bool) (s : Sys) :
    (loopExit own s).client.isConnected = s.client.isConnected := by
  cases own <;> rfl

theorem loopExit_instructions (own : Bool) (s : Sys) :
    (loopExit own s).client.instructions = s.client.instructions := by
  cases own <;> rfl

/-- On a connected client without a callback a pass that reads a message
skips it: the two clock readings apart, the state is as before and the loop
goes on. -/
theorem receive_without_callback (env : Env) (deadline : Int) (closeErr : Err) (own : Bool)
    (s : Sys) (h : Nat) (message : String)
    (hc : s.client.isConnected = true) (hh : s.client.conn = some h)
    (hdl : env.clock s.world.tick ≤ deadline) (hcb : s.client.onReceived = none) :
    readWsMsgIter env deadline (.message message) closeErr own s
      = some ({ s with world := { s.world with tick := s.world.tick + 1 + 1 } }, true) := by
  have hnd : ¬ env.clock s.world.tick > deadline := not_lt.mpr hdl
  simp [readWsMsgIter, IsConnected, hc, nowNano, hnd, hh, hcb]

/-- C9, amended: on a connected client (flag true and handle set, as in
every reachable connected state), when the receive loop reads (before its
deadline) a message that decodes to a `session.update` event with non-empty
session instructions: with a registered callback the pass returns and the
instructions of the client are those of the event, and in any later state
with the same instructions and a non-empty buffer the flush dispatches them
as its text entry; without a callback the message is skipped, the client
(and so its instructions) is unchanged and the loop goes on. -/
theorem session_update_sets_instructions (env : Env) (deadline : Int) (closeErr : Err)
    (own : Bool) (s : Sys) (h : Nat) (message : String) (event : Event) (session : Session)
    (hc : s.client.isConnected = true) (hh : s.client.conn = some h)
    (hdl : env.clock s.world.tick ≤ deadline)
    (hm : env.unmarshalEvent message = some event)
    (ht : event.type = "session.update") (hs : event.session = some session)
    (hi : session.instructions ≠ "") :
    (∀ cb, s.client.onReceived = some cb →
      ∃ s1 b, readWsMsgIter env deadline (.message message) closeErr own s = some (s1, b)
        ∧ s1.client.instructions = session.instructions
        ∧ ∀ (s2 : Sys) (outcome : BatchOutcome),
            s2.client.instructions = s1.client.instructions → s2.client.videoFrames ≠ [] →
            (FlushVideoFrames env outcome s2).1.world.dispatched
              = s2.world.dispatched
                  ++ [ContentPart.text session.instructions
                        :: s2.client.videoFrames.map imagePart])
    ∧ (s.client.onReceived = none →
      ∃ s1, readWsMsgIter env deadline (.message message) closeErr own s = some (s1, true)
        ∧ s1.client = s.client
        ∧ s1.client.instructions = s.client.instructions
        ∧ s1.world.delivered = s.world.delivered) := by
  have hnd : ¬ env.clock s.world.tick > deadline := not_lt.mpr hdl
  constructor
  · intro cb hcb
    have key : ∃ s1 b, readWsMsgIter env deadline (.message message) closeErr own s = some (s1, b)
        ∧ s1.client.instructions = session.instructions := by
      cases hres : readWsMsgIter env deadline (.message message) closeErr own s with
      | none =>
        exfalso
        cases hr : cb event <;>
          simp [readWsMsgIter, IsConnected, hc, nowNano, hnd, hh, hcb, hm, ht, hs, hi, hr,
            Disconnect] at hres
      | some r =>
        obtain ⟨s1, b⟩ := r
        refine ⟨s1, b, rfl, ?_⟩
        cases hr : cb event <;>
          simp [readWsMsgIter, IsConnected, hc, nowNano, hnd, hh, hcb, hm, ht, hs, hi, hr,
            Disconnect] at hres <;>
          (obtain ⟨rfl, _⟩ := hres; first | rfl | (rw [loopExit_instructions]))
    obtain ⟨s1, b, h1, h2⟩ := key
    refine ⟨s1, b, h1, h2, ?_⟩
    intro s2 outcome h3 h4
    exact flush_text_part env outcome s2 _ (h3.trans h2) hi h4
  · intro hcb
    exact ⟨_, receive_without_callback env deadline closeErr own s h message hc hh hdl hcb,
      rfl, rfl, rfl⟩

/-- The hypotheses of `session_update_sets_instructions` hold for the sample
connected client and the message carrying `describe the scene`. -/
theorem session_update_sets_instructions_witness :
    ∃ s1 b, readWsMsgIter sampleEnv farDeadline (.message "session.update describe the scene")
        none true connectedAccept = some (s1, b)
      ∧ s1.client.instructions = "describe the scene"
      ∧ ∀ (s2 : Sys) (outcome : BatchOutcome),
          s2.client.instructions = s1.client.instructions → s2.client.videoFrames ≠ [] →
          (FlushVideoFrames sampleEnv outcome s2).1.world.dispatched
            = s2.world.dispatched
                ++ [ContentPart.text "describe the scene" :: s2.client.videoFrames.map imagePart] :=
  (session_update_sets_instructions sampleEnv farDeadline none true connectedAccept 1
    "session.update describe the scene"
    { type := "session.update", session := some { instructions := "describe the scene" } }
    { instructions := "describe the scene" }
    rfl rfl (by decide) rfl rfl rfl (by decide)).1 acceptAll rfl

/-- C9, as stated, fails: on a connected client without a callback the pass
that reads a `session.update` message with the instructions
`describe the scene` skips the message, the instructions stay the fallback
prompt, and the next flush dispatches the fallback prompt as its text. -/
theorem session_update_without_callback :
    sampleEnv.unmarshalEvent "session.update describe the scene"
      = some { type := "session.update", session := some { instructions := "describe the scene" } }
    ∧ connectedNoCallback.client.isConnected = true
    ∧ ∃ s1, readWsMsgIter sampleEnv farDeadline (.message "session.update describe the scene")
          none true connectedNoCallback = some (s1, true)
        ∧ s1.client.instructions = "请描述这个视频的内容"
        ∧ s1.client.instructions ≠ "describe the scene"
        ∧ (FlushVideoFrames sampleEnv (.doError "unreachable")
            { s1 with client := { s1.client with videoFrames := [[77, 97, 110]] } }).1.world.dispatched
          = [[.text "请描述这个视频的内容", .imageUrl "data:image/jpeg;base64,TWFu"]] :=
  ⟨by decide, by decide, _, rfl, by decide, by decide, by decide⟩

/-- The worked example of C9: with a callback, after the `session.update`
message the flush of one frame dispatches `describe the scene` as its text. -/
theorem session_update_example :
    ∃ s1, readWsMsgIter sampleEnv farDeadline (.message "session.update describe the scene")
          none true connectedAccept = some (s1, true)
        ∧ s1.client.instructions = "describe the scene"
        ∧ (FlushVideoFrames sampleEnv (.doError "unreachable")
            { s1 with client := { s1.client with videoFrames := [[77, 97, 110]] } }).1.world.dispatched
          = [[.text "describe the scene", .imageUrl "data:image/jpeg;base64,TWFu"]] :=
  ⟨_, rfl, by decide, by decide⟩

/-- C10, amended: on a connected client (flag true and handle set, as in
every reachable connected state), for a message the receive loop reads
(before its deadline): with a registered callback, if the message fails to
decode, or the callback returns an error for it, the pass closes the handle
through `Disconnect` and the loop returns: the flag is false, one close was
performed, one loop fewer is running, the callback saw the event of this
message at most, and whatever the transport would answer afterwards the run
of the loop ends in this same state, so no later message is delivered;
without a callback the message is not decoded: the two clock readings apart
the state is as before (flag true, nothing closed, nothing delivered) and the
loop goes on. -/
theorem loop_failure_disconnects (env : Env) (deadline : Int) (closeErr : Err) (own : Bool)
    (s : Sys) (h : Nat) (message : String)
    (hc : s.client.isConnected = true) (hh : s.client.conn = some h)
    (hdl : env.clock s.world.tick ≤ deadline) :
    (∀ cb, s.client.onReceived = some cb →
      (env.unmarshalEvent message = none
        ∨ ∃ event, env.unmarshalEvent message = some event ∧ cb event ≠ none) →
      ∃ s1, readWsMsgIter env deadline (.message message) closeErr own s = some (s1, false)
        ∧ s1.client.isConnected = false
        ∧ s1.world.closes = s.world.closes + 1
        ∧ s1.world.loops = s.world.loops - 1
        ∧ s1.world.delivered = s.world.delivered ++ (env.unmarshalEvent message).toList
        ∧ ∀ rest, readWsMsgLoop env deadline own ((.message message, closeErr) :: rest) s
            = some (s1, false))
    ∧ (s.client.onReceived = none →
      readWsMsgIter env deadline (.message message) closeErr own s
        = some ({ s with world := { s.world with tick := s.world.tick + 1 + 1 } }, true)) := by
  have hnd : ¬ env.clock s.world.tick > deadline := not_lt.mpr hdl
  refine ⟨?_, receive_without_callback env deadline closeErr own s h message hc hh hdl⟩
  intro cb hcb hfail
  have key : ∃ s1, readWsMsgIter env deadline (.message message) closeErr own s = some (s1, false)
      ∧ s1.client.isConnected = false
      ∧ s1.world.closes = s.world.closes + 1
      ∧ s1.world.loops = s.world.loops - 1
      ∧ s1.world.delivered = s.world.delivered ++ (env.unmarshalEvent message).toList := by
    cases hres : readWsMsgIter env deadline (.message message) closeErr own s with
    | none =>
      exfalso
      rcases hfail with hm | ⟨event, hm, hr⟩
      · simp [readWsMsgIter, IsConnected, hc, nowNano, hnd, hh, hcb, hm, Disconnect] at hres
      · obtain ⟨e, he⟩ := Option.ne_none_iff_exists'.mp hr
        cases hsess : event.session with
        | none =>
          simp [readWsMsgIter, IsConnected, hc, nowNano, hnd, hh, hcb, hm, he, hsess,
            Disconnect] at hres
        | some session =>
          by_cases hcond : event.type = "session.update" ∧ ¬ session.instructions = "" <;>
            simp [readWsMsgIter, IsConnected, hc, nowNano, hnd, hh, hcb, hm, he, hsess, hcond,
              Disconnect] at hres
    | some r =>
      obtain ⟨s1, b⟩ := r
      rcases hfail with hm | ⟨event, hm, hr⟩
      · simp [readWsMsgIter, IsConnected, hc, nowNano, hnd, hh, hcb, hm, Disconnect] at hres
        obtain ⟨rfl, rfl⟩ := hres
        exact ⟨_, rfl, by rw [loopExit_isConnected], rfl, rfl, by simp [hm, loopExit_world]⟩
      · obtain ⟨e, he⟩ := Option.ne_none_iff_exists'.mp hr
        cases hsess : event.session with
        | none =>
          simp [readWsMsgIter, IsConnected, hc, nowNano, hnd, hh, hcb, hm, he, hsess,
            Disconnect] at hres
          obtain ⟨rfl, rfl⟩ := hres
          exact ⟨_, rfl, by rw [loopExit_isConnected], rfl, rfl, by simp [hm, loopExit_world]⟩
        | some session =>
          by_cases hcond : event.type = "session.update" ∧ ¬ session.instructions = "" <;>
            simp [readWsMsgIter, IsConnected, hc, nowNano, hnd, hh, hcb, hm, he, hsess, hcond,
              Disconnect] at hres <;>
            (obtain ⟨rfl, rfl⟩ := hres
             exact ⟨_, rfl, by rw [loopExit_isConnected], rfl, rfl,
               by simp [hm, loopExit_world]⟩)
  obtain ⟨s1, h1, h2⟩ := key
  refine ⟨s1, h1, h2.1, h2.2.1, h2.2.2.1, h2.2.2.2, ?_⟩
  intro rest
  simp [readWsMsgLoop, h1]

/-- The hypotheses of `loop_failure_disconnects` hold for the sample connected
client and a message that does not decode. -/
theorem loop_failure_disconnects_witness :
    ∃ s1, readWsMsgIter sampleEnv farDeadline (.message "") none true connectedAccept
        = some (s1, false)
      ∧ s1.client.isConnected = false
      ∧ s1.world.closes = connectedAccept.world.closes + 1
      ∧ s1.world.loops = connectedAccept.world.loops - 1
      ∧ s1.world.delivered
          = connectedAccept.world.delivered ++ (sampleEnv.unmarshalEvent "").toList
      ∧ ∀ rest, readWsMsgLoop sampleEnv farDeadline true ((.message "", none) :: rest)
          connectedAccept = some (s1, false) :=
  (loop_failure_disconnects sampleEnv farDeadline none true connectedAccept 1 ""
    rfl rfl (by decide)).1 acceptAll rfl (Or.inl rfl)

/-- C10, as stated, fails: on a connected client without a callback a message
that does not decode is skipped: the loop goes on, the flag stays true and
nothing is closed. -/
theorem undecodable_without_callback :
    sampleEnv.unmarshalEvent "" = none
    ∧ connectedNoCallback.client.isConnected = true
    ∧ ∃ s1, readWsMsgIter sampleEnv farDeadline (.message "") none true connectedNoCallback
          = some (s1, true)
        ∧ s1.client.isConnected = true ∧ s1.world.closes = 0 ∧ s1.world.loops = 1 :=
  ⟨by decide, by decide, _, rfl, by decide, by decide, by decide⟩

/-- The worked example of C10: with the callback that rejects `bad`, the
messages `ok`, `bad`, `late` deliver `ok` and `bad` only, and the flag is
false afterwards. -/
theorem loop_failure_example :
    ∃ s1, readWsMsgLoop sampleEnv farDeadline true
          [(.message "ok", none), (.message "bad", none), (.message "late", none)]
          connectedRejectBad = some (s1, false)
        ∧ s1.client.isConnected = false
        ∧ s1.world.delivered.map (fun e => e.type) = ["ok", "bad"] :=
  ⟨_, rfl, by decide, by decide⟩

/-- After `Connect`, `Disconnect`, `Connect`, with both receive loops still
running, a failing message is handled in the same way whichever loop reads
it, and both loops can return one after the other: no pass panics. -/
theorem reconnect_loops_example :
    (run sampleEnv [.connect none, .disconnect none, .connect none,
        .receive farDeadline (.error "EOF") none,
        .receive farDeadline (.error "EOF") none] sampleSys).isSome = true
    ∧ (run sampleEnv [.connect none, .disconnect none, .connect none,
        .receive farDeadline (.error "EOF") none,
        .receive farDeadline (.message "") none] sampleSys).isSome = true
    ∧ (run sampleEnv [.connect none, .disconnect none, .connect none,
        .receiveEarlier farDeadline (.error "EOF") none,
        .receive farDeadline (.message "") none,
        .connect none, .receive farDeadline (.message "") none]
        sampleSys).isSome = true :=
  ⟨rfl, rfl, rfl⟩

/-! ## The lines of a response body -/

theorem segmentsAux_ne_nil (l : List Char) : ∀ cur, segmentsAux cur l ≠ [] := by
  induction l with
  | nil => intro cur; simp [segmentsAux]
  | cons c cs ih =>
    intro cur
    unfold segmentsAux
    split
    · simp
    · exact ih _

theorem readLinesAux_eq (l : List Char) :
    ∀ cur, readLinesAux cur l = (segmentsAux cur l).dropLast.map fun s => s ++ ['\n'] := by
  induction l with
  | nil => intro cur; simp [readLinesAux, segmentsAux]
  | cons c cs ih =>
    intro cur
    unfold readLinesAux segmentsAux
    split
    · rename_i hc
      subst hc
      rw [List.dropLast_cons_of_ne_nil (segmentsAux_ne_nil cs [])]
      simp [ih]
    · exact ih _

/-- The lines `ReadString` hands over are the segments of the body that a
line feed ends, each with its line feed. -/
theorem readLines_eq (body : String) :
    readLines body = (terminatedSegments body).map fun s => s ++ ['\n'] :=
  readLinesAux_eq body.toList []


theorem dropWhile_append_space (l : List Char) (c : Char) (hc : isSpace c = true) :
    (l ++ [c]).dropWhile isSpace
      = if l.dropWhile isSpace = [] then [] else l.dropWhile isSpace ++ [c] := by
  induction l with
  | nil => simp [List.dropWhile, hc]
  | cons a as ih =>
    by_cases ha : isSpace a = true
    · simp [List.dropWhile, ha, ih]
    · simp [List.dropWhile, ha]

/-- A trailing white-space character does not change the trimmed line. -/
theorem trimSpace_append_space (l : List Char) (c : Char) (hc : isSpace c = true) :
    trimSpace (l ++ [c]) = trimSpace l := by
  unfold trimSpace
  rw [dropWhile_append_space l c hc]
  split
  · rename_i h; simp [h]
  · simp [List.dropWhile, hc]

/-- The two tests of the loop, the `data: ` tag and the payload `[DONE]`,
hold together exactly for the lines whose trimmed form is `data: [DONE]`. -/
theorem isDoneLine_iff (line : List Char) :
    isDoneLine line = true
      ↔ dataTag.isPrefixOf (trimSpace line) = true
        ∧ String.mk ((trimSpace line).drop dataTag.length) = "[DONE]" := by
  unfold isDoneLine
  rw [beq_iff_eq, List.isPrefixOf_iff_prefix]
  constructor
  · intro h
    rw [h]
    exact ⟨by decide, by decide⟩
  · rintro ⟨⟨t, ht⟩, h2⟩
    rw [← ht] at h2 ⊢
    rw [List.drop_left] at h2
    have : t = "[DONE]".toList := by
      have := congrArg String.toList h2
      simpa using this
    rw [this]
    decide


theorem expectedDeltas_cons_done (env : Env) (raw : List Char) (rest : List (List Char))
    (h : isDoneLine raw = true) : expectedDeltas env (raw :: rest) = [] := by
  simp [expectedDeltas, List.takeWhile, h]

theorem expectedDeltas_cons (env : Env) (raw : List Char) (rest : List (List Char))
    (h : isDoneLine raw = false) :
    expectedDeltas env (raw :: rest) = (lineDelta env raw).toList ++ expectedDeltas env rest := by
  cases hd : lineDelta env raw <;>
    simp [expectedDeltas, List.takeWhile, h, List.filterMap_cons, hd]

/-- The line loop delivers one `response.text.delta` event per expected
increment of its lines, in order, and adds exactly these increments to the
text. -/
theorem consumeLines_deltas (env : Env) (c : Client) (cb : Callback)
    (h : c.onReceived = some cb) (responseID itemID : String) (lines : List (List Char)) :
    ∀ (fullText : String) (w : World), ∃ ds : List Event,
      (consumeLines env c responseID itemID lines fullText w).2.delivered = w.delivered ++ ds
      ∧ (∀ d ∈ ds, d.type = "response.text.delta")
      ∧ (ds.map fun d => d.delta) = expectedDeltas env lines
      ∧ (consumeLines env c responseID itemID lines fullText w).1
          = fullText ++ concatAll (expectedDeltas env lines) := by
  induction lines with
  | nil => intro fullText w; exact ⟨[], by simp [consumeLines, concatAll, expectedDeltas]⟩
  | cons raw rest ih =>
    intro fullText w
    unfold consumeLines
    simp only []
    split
    · rename_i hp
      have hnd : isDoneLine raw = false := by
        cases hd : isDoneLine raw with
        | false => rfl
        | true => simp [((isDoneLine_iff raw).mp hd).1] at hp
      have hl : lineDelta env raw = none := by
        unfold lineDelta
        simp only [Bool.not_eq_true'] at hp
        simp [hp]
      rw [expectedDeltas_cons env raw rest hnd, hl]
      exact ih fullText w
    · rename_i hp
      have hp' : dataTag.isPrefixOf (trimSpace raw) = true := by simpa using hp
      split
      · rename_i hdone
        rw [expectedDeltas_cons_done env raw rest ((isDoneLine_iff raw).mpr ⟨hp', hdone⟩)]
        exact ⟨[], by simp [concatAll]⟩
      · rename_i hdone
        have hnd : isDoneLine raw = false := by
          cases hd : isDoneLine raw with
          | false => rfl
          | true => exact absurd ((isDoneLine_iff raw).mp hd).2 hdone
        rw [expectedDeltas_cons env raw rest hnd]
        split
        · rename_i hu
          have hl : lineDelta env raw = none := by
            unfold lineDelta; simp [hp', hu]
          rw [hl]
          exact ih fullText w
        · split
          · rename_i chunk hu _ hx
            have hl : lineDelta env raw = none := by
              unfold lineDelta; simp [hp', hu, hx]
            rw [hl]
            exact ih fullText w
          · rename_i chunk hu _ content hx
            have hl : lineDelta env raw = some content := by
              unfold lineDelta; simp [hp', hu, hx]
            rw [hl]
            obtain ⟨ds, h1, h2, h3, h4⟩ := ih (fullText ++ content) (emit env c w fun e =>
                { e with type := "response.text.delta", responseID := responseID,
                         itemID := itemID, delta := content })
            refine ⟨{ eventID := "event" ++ fmtInt (env.clock w.tick),
                      clientTimestamp := env.clock (w.tick + 1) / 1000000,
                      type := "response.text.delta", responseID := responseID,
                      itemID := itemID, delta := content } :: ds, ?_, ?_, ?_, ?_⟩
            · rw [h1, delivered_emit env c w _ cb h]; simp
            · intro d hd
              rcases List.mem_cons.mp hd with rfl | hd
              · rfl
              · exact h2 d hd
            · simp [h3]
            · rw [h4]; simp [concatAll, String.append_assoc]

theorem expectedDeltas_map_newline (env : Env) (lines : List (List Char)) :
    expectedDeltas env (lines.map fun s => s ++ ['\n']) = expectedDeltas env lines := by
  have hs : isSpace '\n' = true := by decide
  induction lines with
  | nil => rfl
  | cons l rest ih =>
    have hd : isDoneLine (l ++ ['\n']) = isDoneLine l := by
      unfold isDoneLine; rw [trimSpace_append_space l _ hs]
    have hl : lineDelta env (l ++ ['\n']) = lineDelta env l := by
      unfold lineDelta; rw [trimSpace_append_space l _ hs]
    rw [List.map_cons]
    cases hdl : isDoneLine l with
    | true =>
      rw [expectedDeltas_cons_done env _ _ (hd.trans hdl), expectedDeltas_cons_done env _ _ hdl]
    | false =>
      rw [expectedDeltas_cons env _ _ (hd.trans hdl), expectedDeltas_cons env _ _ hdl, hl, ih]

theorem expectedDeltas_readLines (env : Env) (body : String) :
    expectedDeltas env (readLines body) = expectedDeltas env (terminatedSegments body) := by
  rw [readLines_eq, expectedDeltas_map_newline]


/-- The deliveries of the 200 branch, with the deltas named: they are the
expected increments of the terminated segments of the body. -/
theorem streamResponse_deltas (env : Env) (c : Client) (cb : Callback) (w : World)
    (body : String) (h : c.onReceived = some cb) :
    ∃ (created added textDone finished : Event) (deltas : List Event),
      (streamResponse env c w body).delivered
        = w.delivered ++ ([created, added] ++ deltas ++ [textDone, finished])
      ∧ created.type = "response.created"
      ∧ added.type = "response.output_item.added"
      ∧ (∀ d ∈ deltas, d.type = "response.text.delta")
      ∧ textDone.type = "response.text.done"
      ∧ finished.type = "response.done"
      ∧ (deltas.map fun d => d.delta) = expectedDeltas env (terminatedSegments body)
      ∧ textDone.text = some (concatAll (expectedDeltas env (terminatedSegments body))) := by
  let responseID := "resp" ++ fmtInt (env.clock w.tick)
  let itemID := "item" ++ fmtInt (env.clock (w.tick + 1))
  let w2 : World := { w with tick := w.tick + 1 + 1 }
  let w3 := emit env c w2 fun e =>
    { e with type := "response.created", responseID := responseID }
  let w4 := emit env c w3 fun e =>
    { e with type := "response.output_item.added", responseID := responseID,
             itemID := itemID }
  obtain ⟨ds, h1, h2, h3, h5⟩ :=
    consumeLines_deltas env c cb h responseID itemID (readLines body) "" w4
  rw [expectedDeltas_readLines] at h3 h5
  have hrun : streamResponse env c w body
      = emit env c (emit env c (consumeLines env c responseID itemID (readLines body) "" w4).2
          fun e => { e with type := "response.text.done", responseID := responseID,
                            itemID := itemID,
                            text := some (consumeLines env c responseID itemID
                              (readLines body) "" w4).1 })
          fun e => { e with type := "response.done", responseID := responseID } := rfl
  have h4 : w4.delivered = w.delivered ++
      [{ eventID := "event" ++ fmtInt (env.clock w2.tick),
         clientTimestamp := env.clock (w2.tick + 1) / 1000000,
         type := "response.created", responseID := responseID },
       { eventID := "event" ++ fmtInt (env.clock w3.tick),
         clientTimestamp := env.clock (w3.tick + 1) / 1000000,
         type := "response.output_item.added", responseID := responseID,
         itemID := itemID }] := by
    show (emit env c w3 _).delivered = _
    rw [delivered_emit env c w3 _ cb h]
    show (emit env c w2 _).delivered ++ _ = _
    rw [delivered_emit env c w2 _ cb h]
    simp [w2]
  rw [hrun, delivered_emit env c _ _ cb h, delivered_emit env c _ _ cb h, h1, h4]
  refine ⟨_, _, _, _, ds,
    (by simp only [List.append_assoc, List.cons_append, List.nil_append]; rfl),
    rfl, rfl, h2, rfl, rfl, h3, ?_⟩
  simp [h5]

/-- Among the events of one run, the `response.text.delta` events are the
middle block. -/
theorem textDeltas_shape (created added textDone finished : Event) (deltas : List Event)
    (h1 : created.type = "response.created") (h2 : added.type = "response.output_item.added")
    (h3 : ∀ d ∈ deltas, d.type = "response.text.delta")
    (h4 : textDone.type = "response.text.done") (h5 : finished.type = "response.done") :
    textDeltas ([created, added] ++ deltas ++ [textDone, finished])
      = deltas.map fun d => d.delta := by
  have hf : deltas.filter (fun e => decide (e.type = "response.text.delta")) = deltas :=
    List.filter_eq_self.mpr fun d hd => by simp [h3 d hd]
  simp [textDeltas, List.filter_cons, List.filter_append, h1, h2, h4, h5, hf]

/-- C11, amended: on a 200 response, with the lines of the body taken to be
its newline-terminated segments (a last segment that ends at the end of the
body without a line feed is not looked at), the `response.text.delta` events
the run delivers carry exactly, in order, the increments of the lines that
come before the first `data: [DONE]` line, start with `data: ` after
trimming and have a payload that parses to an object with a non-empty string
at `choices[0].delta.content`; no other line yields an event, and the text
of the `response.text.done` event is the concatenation of these increments. -/
theorem sse_deltas_of_terminated_lines (env : Env) (c : Client) (cb : Callback) (w : World)
    (content : List ContentPart) (body : String) (h : c.onReceived = some cb) :
    textDeltas ((sendBatchFramesTo4V env (.response 200 body) c w content).1.delivered.drop
        w.delivered.length)
      = expectedDeltas env (terminatedSegments body)
    ∧ ∃ textDone ∈ (sendBatchFramesTo4V env (.response 200 body) c w content).1.delivered.drop
          w.delivered.length,
        textDone.type = "response.text.done"
        ∧ textDone.text = some (concatAll (expectedDeltas env (terminatedSegments body))) := by
  obtain ⟨e1, e2, e3, e4, ds, h1, h2, h3, h4, h5, h6, h7, h8⟩ := streamResponse_deltas env c cb
    { w with dispatched := w.dispatched ++ [content],
             requests := w.requests ++ [requestBody content] } body h
  have hd : (sendBatchFramesTo4V env (.response 200 body) c w content).1.delivered
      = w.delivered ++ ([e1, e2] ++ ds ++ [e3, e4]) := h1
  rw [hd, List.drop_left]
  refine ⟨?_, e3, by simp, h5, h8⟩
  rw [textDeltas_shape e1 e2 e3 e4 ds h2 h3 h4 h5 h6, h7]

/-- The hypothesis of `sse_deltas_of_terminated_lines` holds for the sample
client, and the theorem applies to the body with the chunks `A`, `B`, `C`. -/
theorem sse_deltas_of_terminated_lines_witness :
    sampleSys.client.onReceived = some acceptAll
    ∧ textDeltas ((sendBatchFramesTo4V sampleEnv (.response 200 abcBody) sampleSys.client
          sampleSys.world []).1.delivered.drop sampleSys.world.delivered.length)
        = expectedDeltas sampleEnv (terminatedSegments abcBody) :=
  ⟨rfl, (sse_deltas_of_terminated_lines sampleEnv sampleSys.client acceptAll sampleSys.world []
    abcBody rfl).1⟩

/-- C11, as stated, fails: for a body whose single line carries `A` and ends
at the end of the body without a line feed, the specification expects the
delta `A`, and the run delivers no delta and an empty text. -/
theorem unterminated_line_counterexample :
    expectedDeltas sampleEnv (segments unterminatedBody) = ["A"]
    ∧ textDeltas (sendBatchFramesTo4V sampleEnv (.response 200 unterminatedBody)
        sampleSys.client sampleSys.world []).1.delivered = []
    ∧ (sendBatchFramesTo4V sampleEnv (.response 200 unterminatedBody) sampleSys.client
        sampleSys.world []).1.delivered.map (fun e => (e.type, e.text))
      = [("response.created", none), ("response.output_item.added", none),
         ("response.text.done", some ""), ("response.done", none)] := by
  decide

/-- The worked example of C11: the increments expected from the terminated
segments of sample bodies; lines without the tag, lines that do not parse
and lines after the end marker give none. -/
theorem sse_lines_example :
    expectedDeltas sampleEnv (terminatedSegments abcBody) = ["A", "B", "C"]
    ∧ expectedDeltas sampleEnv (terminatedSegments unterminatedBody) = []
    ∧ expectedDeltas sampleEnv (terminatedSegments
        ("event: x\ndata: not json\n  " ++ abcBody ++ abcBody)) = ["A", "B", "C"] := by
  decide

/-! ## The handles of the client -/

theorem keepsHandles_refl (s : Sys) : keepsHandles s s := ⟨rfl, id⟩

theorem keepsHandles_trans {s s1 s2 : Sys} (h1 : keepsHandles s s1) (h2 : keepsHandles s1 s2) :
    keepsHandles s s2 :=
  ⟨h2.1.trans h1.1, fun h => h2.2 (h1.2 h)⟩

theorem handlesInv_of_keeps {s s1 : Sys} (h : keepsHandles s s1) (hi : handlesInv s) :
    handlesInv s1 := by
  intro hc
  rw [h.1] at hc
  exact h.2 (hi hc)

theorem keepsHandles_loopExit (own : Bool) (s : Sys) : keepsHandles s (loopExit own s) := by
  cases own
  · exact ⟨rfl, id⟩
  · refine ⟨rfl, fun h => ?_⟩
    cases hw : s.client.wg with
    | none => exact absurd hw h
    | some n => simp [loopExit, hw]

theorem keepsHandles_disconnect {closeErr : Err} {s s1 : Sys} {e : Err}
    (h : Disconnect closeErr s = some (s1, e)) : keepsHandles s s1 := by
  by_cases hc : s.client.isConnected = true
  · cases hh : s.client.conn with
    | none => simp [Disconnect, hc, hh] at h
    | some x =>
      simp [Disconnect, hc, hh] at h
      obtain ⟨rfl, _⟩ := h
      exact ⟨hh.symm, id⟩
  · simp [Disconnect, hc] at h
    obtain ⟨rfl, _⟩ := h
    exact keepsHandles_refl s

theorem keepsHandles_exit {own : Bool} {s s1 s2 : Sys} {b : Bool}
    (h : some (loopExit own s1, false) = some (s2, b)) (hk : keepsHandles s s1) :
    keepsHandles s s2 := by
  simp only [Option.some.injEq, Prod.mk.injEq] at h
  obtain ⟨rfl, _⟩ := h
  exact keepsHandles_trans hk (keepsHandles_loopExit own s1)

theorem keepsHandles_disconnect_exit {closeErr : Err} {own : Bool} {s s1 s2 : Sys} {b : Bool}
    (h : (match Disconnect closeErr s1 with
          | none => none
          | some (s, _) => some (loopExit own s, false)) = some (s2, b))
    (hk : keepsHandles s s1) : keepsHandles s s2 := by
  cases hd : Disconnect closeErr s1 with
  | none => simp [hd] at h
  | some r =>
    obtain ⟨x, e⟩ := r
    simp only [hd] at h
    exact keepsHandles_exit h (keepsHandles_trans hk (keepsHandles_disconnect hd))

/-- A pass of the receive loop leaves `conn` alone and does not reset `wg`. -/
theorem keepsHandles_receive (env : Env) (deadline : Int) (rd : ReadResult) (closeErr : Err)
    (own : Bool) (s s1 : Sys) (b : Bool)
    (h : readWsMsgIter env deadline rd closeErr own s = some (s1, b)) :
    keepsHandles s s1 := by
  unfold readWsMsgIter at h
  simp only [IsConnected, nowNano] at h
  split at h
  · exact keepsHandles_exit h (keepsHandles_refl s)
  · split at h
    · exact keepsHandles_exit h ⟨rfl, id⟩
    · split at h
      · simp at h
      · split at h
        · exact keepsHandles_exit h ⟨rfl, id⟩
        · split at h
          · simp at h
            obtain ⟨rfl, _⟩ := h
            exact ⟨rfl, id⟩
          · split at h
            · exact keepsHandles_disconnect_exit h ⟨rfl, id⟩
            · rename_i event _
              have hs : ∀ x : Sys, keepsHandles s x → keepsHandles s
                  (match event.session with
                    | some session =>
                      if event.type = "session.update" ∧ session.instructions ≠ "" then
                        { x with client := { x.client with instructions := session.instructions } }
                      else x
                    | none => x) := by
                intro x hx
                split
                · split
                  · exact hx
                  · exact hx
                · exact hx
              have hk := hs { s with world := (nowNano env { s.world with tick := s.world.tick + 1 }).2 }
                ⟨rfl, id⟩
              split at h
              · exact keepsHandles_disconnect_exit h ⟨hk.1, hk.2⟩
              · simp at h
                obtain ⟨rfl, _⟩ := h
                exact ⟨hk.1, hk.2⟩

theorem handlesInv_step (env : Env) (s s1 : Sys) (a : Action)
    (h : step env s a = some s1) (hi : handlesInv s) : handlesInv s1 := by
  cases a with
  | connect dialErr =>
    simp only [step, Option.some.injEq] at h
    subst h
    by_cases hc : s.client.isConnected = true
    · simpa [Connect, hc] using hi
    · cases dialErr with
      | some e => simpa [Connect, hc, handlesInv] using hi
      | none => simp [Connect, hc, handlesInv]
  | disconnect closeErr =>
    simp only [step, Option.map_eq_some'] at h
    obtain ⟨r, hr, rfl⟩ := h
    exact handlesInv_of_keeps (keepsHandles_disconnect hr) hi
  | send event writeErr =>
    simp only [step, Option.map_eq_some'] at h
    obtain ⟨r, hr, rfl⟩ := h
    by_cases hc : s.client.isConnected = true
    · cases hh : s.client.conn with
      | none => simp [Send, hc, hh] at hr
      | some x =>
        by_cases hts : event.clientTimestamp ≤ 0 <;>
          simp [Send, hc, hh, hts, nowMilli] at hr <;>
          (subst hr; exact hi)
    · simp [Send, hc] at hr
      subst hr
      exact hi
  | wait =>
    simp only [step, Wait] at h
    split at h
    · simp at h
    · simp at h; subst h; exact hi
  | receive deadline rd closeErr =>
    simp only [step] at h
    split at h
    · simp at h
    · simp only [Option.map_eq_some'] at h
      obtain ⟨r, hr, rfl⟩ := h
      exact handlesInv_of_keeps (keepsHandles_receive env deadline rd closeErr _ s r.1 r.2 hr) hi
  | receiveEarlier deadline rd closeErr =>
    simp only [step] at h
    split at h
    · simp at h
    · simp only [Option.map_eq_some'] at h
      obtain ⟨r, hr, rfl⟩ := h
      exact handlesInv_of_keeps (keepsHandles_receive env deadline rd closeErr _ s r.1 r.2 hr) hi

theorem handlesInv_run (env : Env) (actions : List Action) :
    ∀ s s1 : Sys, run env actions s = some s1 → handlesInv s → handlesInv s1 := by
  induction actions with
  | nil => intro s s1 h hi; simp [run] at h; subst h; exact hi
  | cons a rest ih =>
    intro s s1 h hi
    simp only [run] at h
    cases hs : step env s a with
    | none => simp [hs] at h
    | some s2 =>
      simp only [hs] at h
      exact ih s2 s1 h (handlesInv_step env s s2 a hs hi)

/-- In every reachable state with the connected flag true both handles are
set, so `Disconnect`, `Send` and `Wait` find them and return. -/
theorem connected_handles_set (env : Env) (s : Sys) (h : Reachable env s)
    (hc : s.client.isConnected = true) :
    (∃ x, s.client.conn = some x) ∧ (∃ n, s.client.wg = some n)
    ∧ (∀ closeErr, ∃ r, Disconnect closeErr s = some r)
    ∧ (∀ writeErr event, ∃ r, Send env writeErr s event = some r)
    ∧ ∃ r, Wait s = some r := by
  have hopen := (lifecycleInv_reachable env s h).1.mp hc
  obtain ⟨url, apiKey, cb, actions, hr⟩ := h
  have hinv : handlesInv s := handlesInv_run env actions _ s hr (by
    simp [handlesInv, freshSys, NewRealtimeClient])
  cases hx : s.client.conn with
  | none => simp [handleOpen, hx] at hopen
  | some x =>
    have hwg : s.client.wg ≠ none := hinv (by simp [hx])
    obtain ⟨n, hn⟩ := Option.ne_none_iff_exists'.mp hwg
    refine ⟨⟨x, rfl⟩, ⟨n, hn⟩, ?_, ?_, ?_⟩
    · intro closeErr; simp [Disconnect, hc, hx]
    · intro writeErr event; simp [Send, hc, hx]
    · simp [Wait, hn]

/-- C12, the failing input: on a freshly constructed client, and on a client
whose only `Connect` failed at the dial, `wg` is nil and `Wait` dereferences
it: the call panics. -/
theorem wait_before_connect_panics (env : Env) (url apiKey dialError : String)
    (onReceived : Option Callback) :
    (freshSys url apiKey onReceived).client.wg = none
    ∧ Wait (freshSys url apiKey onReceived) = none
    ∧ run env [.wait] (freshSys url apiKey onReceived) = none
    ∧ (Connect (some dialError) (freshSys url apiKey onReceived)).2 = some dialError
    ∧ Wait (Connect (some dialError) (freshSys url apiKey onReceived)).1 = none
    ∧ run env [.connect (some dialError), .wait] (freshSys url apiKey onReceived) = none :=
  ⟨rfl, rfl, rfl, rfl, rfl, rfl⟩

/-- The worked example of C12: after a successful `Connect` the calls of
`Wait`, before and after `Disconnect`, return. -/
theorem wait_after_connect_example :
    Wait connectedAccept = some connectedAccept
    ∧ (run sampleEnv [.connect none, .wait, .disconnect none, .wait] sampleSys).isSome = true :=
  ⟨rfl, rfl⟩

end GlmRealtime
